import Mathlib

/-!
Verification of the BBEETECH execution-and-audit pipeline.

Shallow embedding of the core engines of the repository:
  - `l4_core/ai/router.py`          (AIRouter: engine selection, kill switches)
  - `l4_core/ai/flow_engine.py`     (FlowEngine: multi-step flows, IR extraction)
  - `l4_core/ai/runtime_engine.py`  (RuntimeEngine: bounded retry)
  - `l4_core/ai/sandbox_engine.py`  (SandboxEngine: exit-code classification)
  - `l4_core/ai/audit_engine.py`    (AuditEngine: backup / sandbox / rollback)
  - `l4_core/ai/teaching_engine.py` (TeachingEngine: error-signature dedup)
  - `l4_core/db/models.py`          (row shapes)

Modelling conventions:
  - Persistence is an external collaborator (spec section 1); an ORM row is a
    record, a table is a list of records in insertion order, `db.add` plus
    `commit` is an append, and an in-place attribute mutation on a persisted
    row is a keyed update of the list.
  - The generation backends and `json.loads` are external; they appear as
    oracle parameters of the embedded functions.
  - `generate_trace_id` returns globally unique opaque strings; it is
    modelled by a counter in the state together with `idString`.
  - datetime columns carry wall-clock time, which is outside the model
    (spec section 5); they are omitted, and the latency fold of the
    teaching engine that depends on them is not embedded.
-/

namespace BBEE

/-! ## JSON values

Models the Python JSON payloads moved around by the engines
(dicts, lists, strings, numbers, booleans, None). Numbers are modelled as
integers; no claim depends on float payloads. -/

inductive Json where
  | null
  | bool (b : Bool)
  | num (n : Int)
  | str (s : String)
  | arr (items : List Json)
  | obj (fields : List (String × Json))
deriving Repr, Inhabited

/-- Python truthiness of a JSON value, as used by the `x or y` idiom. -/
def Json.truthy : Json → Bool
  | .null => false
  | .bool b => b
  | .num n => n != 0
  | .str s => s ≠ ""
  | .arr items => !items.isEmpty
  | .obj fields => !fields.isEmpty

/-- Python `d.get(k, default)` on a dict: the stored value, present or not. -/
def pyGet (fields : List (String × Json)) (k : String) (default : Json) : Json :=
  (fields.lookup k).getD default

/-- Python `v or d` where `v` came from `d.get(k)` (`none` models a missing
key, i.e. a `None` result). -/
def pyOr (v : Option Json) (d : Json) : Json :=
  match v with
  | some j => if j.truthy then j else d
  | none => d

/-- Lookup of a key in a JSON value, `none` when it is not an object. -/
def jsonGet (j : Json) (k : String) : Option Json :=
  match j with
  | .obj fields => fields.lookup k
  | _ => none

/-- Python `v or d` on optional strings: `None` and the empty string are
falsy. -/
def pyOrStr (v : Option String) (d : String) : String :=
  match v with
  | some s => if s = "" then d else s
  | none => d

/-! ## AI Router (`l4_core/ai/router.py`)

The `ai_engines` table is a list of rows in creation order. The
`ORDER BY priority ASC` of `_get_available_engines` is modelled as a stable
sort, realizing the creation-order tie-break the persistence layer
provides for identical priorities. -/

/-- A row of the `ai_engines` table (`AIEngine` in `db/models.py`); only the
columns the router reads are kept. -/
structure AIEngine where
  id : String
  provider : String
  model : String
  label : String
  enabled : Bool
  priority : Nat
deriving DecidableEq, Repr

/-- The initial `provider_overrides` kill-switch map of `AIRouter.__init__`. -/
def defaultProviderOverrides : List (String × Bool) :=
  [("openai", true), ("deepseek", true), ("anthropic", true),
   ("gemini", true), ("internal", true)]

/-- `self.provider_overrides.get(provider, True)`. -/
def overridesGet (ov : List (String × Bool)) (p : String) : Bool :=
  (ov.lookup p).getD true

/-- `AIRouter.set_provider_enabled`: updates the switch only when the
provider is already a key of the override map. -/
def setProviderEnabled (ov : List (String × Bool)) (p : String) (b : Bool) :
    List (String × Bool) :=
  if (ov.lookup p).isSome then
    ov.map (fun q => if q.1 = p then (p, b) else q)
  else ov

/-- Stable insertion of an engine into a priority-sorted list: the engine
goes in front of the first row whose priority is not smaller. -/
def insertByPriority (e : AIEngine) : List AIEngine → List AIEngine
  | [] => [e]
  | f :: fs =>
    if f.priority < e.priority then f :: insertByPriority e fs
    else e :: f :: fs

/-- Stable sort by ascending priority (`ORDER BY priority ASC` over rows in
creation order). -/
def sortByPriority : List AIEngine → List AIEngine
  | [] => []
  | e :: es => insertByPriority e (sortByPriority es)

/-- `AIRouter._get_available_engines`: enabled rows sorted by priority,
filtered by the kill-switch overrides; when nothing survives, the fallback
query returns the enabled rows of the `internal` provider, without
re-applying the overrides. -/
def getAvailableEngines (db : List AIEngine) (ov : List (String × Bool)) :
    List AIEngine :=
  let engines :=
    (sortByPriority (db.filter (fun e => e.enabled))).filter
      (fun e => overridesGet ov e.provider)
  if engines.isEmpty then
    sortByPriority (db.filter (fun e => e.enabled && e.provider == "internal"))
  else engines

/-- `AIRouter._choose_engine`: the first surviving engine. -/
def chooseEngine (db : List AIEngine) (ov : List (String × Bool)) :
    Option AIEngine :=
  (getAvailableEngines db ov).head?

/-- `AIRequest` of `router.py` (the `temperature` float is not read by any
embedded code path and is omitted). -/
structure AIRequest where
  prompt : String
  systemPrompt : Option String := none
  maxTokens : Nat := 1024
  metadata : List (String × Json) := []

/-- `AIResponse` of `router.py`. -/
structure AIResponse where
  content : Json
  provider : String
  model : String
  traceId : String
  raw : Json

/-- The two configuration errors `generate_text` can raise. -/
inductive RouterError where
  | noEngineAvailable
  | unknownProvider (p : String)
deriving DecidableEq, Repr

/-- The keys of `PROVIDER_REGISTRY` (`l4_core/ai/providers/__init__.py`). -/
def providerRegistryKeys : List String :=
  ["openai", "deepseek", "anthropic", "gemini", "internal"]

/-- `AIRouter.generate_text`. The provider adapters are external
collaborators; `callProvider` is the dispatched adapter call, returning the
result dict from which `output_text` and `raw` are read with defaults. -/
def generateText (db : List AIEngine) (ov : List (String × Bool))
    (callProvider : String → String → AIRequest → List (String × Json))
    (req : AIRequest) (traceId : String) : Except RouterError AIResponse :=
  match chooseEngine db ov with
  | none => .error .noEngineAvailable
  | some engine =>
    if providerRegistryKeys.contains engine.provider then
      let result := callProvider engine.provider engine.model req
      let content := (result.lookup "output_text").getD (.str "")
      let raw := (result.lookup "raw").getD (.obj [])
      .ok { content := content, provider := engine.provider,
            model := engine.model, traceId := traceId, raw := raw }
    else .error (.unknownProvider engine.provider)

/-! ### Sorting lemmas for the router -/

/-- Ascending-priority sortedness. -/
abbrev PrioSorted (l : List AIEngine) : Prop :=
  l.Pairwise (fun a b => a.priority ≤ b.priority)

theorem insertByPriority_eq_cons (e : AIEngine) (l : List AIEngine)
    (h : ∀ f ∈ l, e.priority ≤ f.priority) :
    insertByPriority e l = e :: l := by
  cases l with
  | nil => rfl
  | cons f fs =>
    have hf := h f (List.mem_cons_self f fs)
    simp [insertByPriority, Nat.not_lt.mpr hf]

theorem mem_insertByPriority (e a : AIEngine) (l : List AIEngine) :
    a ∈ insertByPriority e l ↔ a = e ∨ a ∈ l := by
  induction l with
  | nil => simp [insertByPriority]
  | cons f fs ih =>
    by_cases h : f.priority < e.priority
    · simp only [insertByPriority, if_pos h, List.mem_cons, ih]
      tauto
    · simp only [insertByPriority, if_neg h, List.mem_cons]

theorem prioSorted_insertByPriority (e : AIEngine) (l : List AIEngine)
    (hl : PrioSorted l) : PrioSorted (insertByPriority e l) := by
  induction l with
  | nil => simp [insertByPriority, PrioSorted]
  | cons f fs ih =>
    simp only [PrioSorted, List.pairwise_cons] at hl
    by_cases h : f.priority < e.priority
    · rw [insertByPriority, if_pos h]
      simp only [PrioSorted, List.pairwise_cons]
      refine ⟨?_, ih hl.2⟩
      intro b hb
      rcases (mem_insertByPriority e b fs).mp hb with hbe | hbm
      · exact hbe ▸ Nat.le_of_lt h
      · exact hl.1 b hbm
    · rw [insertByPriority, if_neg h]
      simp only [PrioSorted, List.pairwise_cons]
      refine ⟨?_, hl⟩
      intro b hb
      have he : e.priority ≤ f.priority := Nat.le_of_not_lt h
      rcases List.mem_cons.mp hb with hbf | hbm
      · exact hbf ▸ he
      · exact Nat.le_trans he (hl.1 b hbm)

theorem prioSorted_sortByPriority (l : List AIEngine) :
    PrioSorted (sortByPriority l) := by
  induction l with
  | nil => simp [sortByPriority, PrioSorted]
  | cons e es ih => exact prioSorted_insertByPriority e _ ih

theorem mem_sortByPriority (a : AIEngine) (l : List AIEngine) :
    a ∈ sortByPriority l ↔ a ∈ l := by
  induction l with
  | nil => simp [sortByPriority]
  | cons e es ih =>
    rw [sortByPriority]
    simp only [mem_insertByPriority, ih, List.mem_cons]

theorem filter_insertByPriority (p : AIEngine → Bool) (e : AIEngine)
    (l : List AIEngine) (hl : PrioSorted l) :
    (insertByPriority e l).filter p =
      if p e then insertByPriority e (l.filter p) else l.filter p := by
  induction l with
  | nil =>
    cases hpe : p e <;> simp [insertByPriority, List.filter, hpe]
  | cons f fs ih =>
    rw [PrioSorted, List.pairwise_cons] at hl
    by_cases h : f.priority < e.priority
    · rw [insertByPriority]
      simp only [h, if_true]
      cases hpf : p f with
      | true =>
        rw [List.filter_cons, List.filter_cons]
        simp only [hpf, if_true]
        rw [ih hl.2]
        cases hpe : p e with
        | true =>
          simp only [if_true]
          rw [insertByPriority]
          simp [h]
        | false => simp
      | false =>
        rw [List.filter_cons, List.filter_cons]
        simp only [hpf, if_false]
        exact ih hl.2
    · rw [insertByPriority]
      simp only [h, if_false]
      cases hpe : p e with
      | true =>
        rw [List.filter_cons]
        simp only [hpe, if_true]
        have he : e.priority ≤ f.priority := Nat.le_of_not_lt h
        rw [insertByPriority_eq_cons]
        intro g hg
        have hgm : g ∈ f :: fs := List.mem_of_mem_filter hg
        rcases List.mem_cons.mp hgm with hgf | hgfs
        · exact hgf ▸ he
        · exact Nat.le_trans he (hl.1 g hgfs)
      | false =>
        rw [List.filter_cons]
        simp [hpe]

theorem filter_sortByPriority (p : AIEngine → Bool) (l : List AIEngine) :
    (sortByPriority l).filter p = sortByPriority (l.filter p) := by
  induction l with
  | nil => simp [sortByPriority]
  | cons e es ih =>
    rw [sortByPriority, filter_insertByPriority p e _ (prioSorted_sortByPriority es), ih]
    rw [List.filter_cons]
    cases hpe : p e with
    | true => simp [sortByPriority]
    | false => simp [sortByPriority]

theorem sortByPriority_eq_nil (l : List AIEngine) :
    sortByPriority l = [] ↔ l = [] := by
  cases l with
  | nil => simp [sortByPriority]
  | cons e es =>
    simp only [sortByPriority]
    constructor
    · intro h
      have : e ∈ insertByPriority e (sortByPriority es) :=
        (mem_insertByPriority e e _).mpr (Or.inl rfl)
      rw [h] at this
      exact absurd this (List.not_mem_nil e)
    · intro h
      exact absurd h (List.cons_ne_nil e es)

/-- The leftmost minimal-priority element of a list: lowest priority, ties
resolved to the earliest position. -/
def leftmostMin : List AIEngine → Option AIEngine
  | [] => none
  | e :: es =>
    match leftmostMin es with
    | none => some e
    | some f => some (if f.priority < e.priority then f else e)

theorem head?_insertByPriority (e : AIEngine) (l : List AIEngine) :
    (insertByPriority e l).head? =
      some (match l.head? with
            | none => e
            | some f => if f.priority < e.priority then f else e) := by
  cases l with
  | nil => rfl
  | cons f fs =>
    by_cases h : f.priority < e.priority <;> simp [insertByPriority, h]

theorem head?_sortByPriority (l : List AIEngine) :
    (sortByPriority l).head? = leftmostMin l := by
  induction l with
  | nil => rfl
  | cons e es ih =>
    rw [sortByPriority, head?_insertByPriority, leftmostMin, ← ih]
    cases h : (sortByPriority es).head? <;> simp [h]

theorem leftmostMin_spec (l : List AIEngine) (e : AIEngine)
    (h : leftmostMin l = some e) :
    ∃ l₁ l₂, l = l₁ ++ e :: l₂ ∧ (∀ f ∈ l₁, e.priority < f.priority) ∧
      (∀ f ∈ l₂, e.priority ≤ f.priority) := by
  induction l generalizing e with
  | nil => simp [leftmostMin] at h
  | cons a as ih =>
    rw [leftmostMin] at h
    cases hm : leftmostMin as with
    | none =>
      rw [hm] at h
      have ha : e = a := by
        have := Option.some.inj h
        exact this.symm
      subst ha
      have has : as = [] := by
        cases as with
        | nil => rfl
        | cons b bs =>
          rw [leftmostMin] at hm
          cases hb : leftmostMin bs <;> rw [hb] at hm <;> simp at hm
      subst has
      exact ⟨[], [], rfl, by simp, by simp⟩
    | some f =>
      rw [hm] at h
      obtain ⟨l₁, l₂, hdec, hlt, hle⟩ := ih f hm
      by_cases hp : f.priority < a.priority
      · have he : e = f := by
          have := Option.some.inj h
          simp [hp] at this
          exact this.symm
        subst he
        refine ⟨a :: l₁, l₂, by rw [hdec, List.cons_append], ?_, hle⟩
        intro g hg
        rcases List.mem_cons.mp hg with hga | hgm
        · exact hga ▸ hp
        · exact hlt g hgm
      · have he : e = a := by
          have := Option.some.inj h
          simp [hp] at this
          exact this.symm
        subst he
        have hef : e.priority ≤ f.priority := Nat.le_of_not_lt hp
        refine ⟨[], as, by simp, by simp, ?_⟩
        intro g hg
        rw [hdec] at hg
        rcases List.mem_append.mp hg with hg1 | hg2
        · exact Nat.le_trans hef (Nat.le_of_lt (hlt g hg1))
        · rcases List.mem_cons.mp hg2 with hgf | hgm
          · exact hgf ▸ hef
          · exact Nat.le_trans hef (hle g hgm)

/-- The surviving candidate set of the primary query: enabled rows whose
provider survives the kill-switch overrides, in creation order. -/
def candidateEngines (db : List AIEngine) (ov : List (String × Bool)) :
    List AIEngine :=
  db.filter (fun e => e.enabled && overridesGet ov e.provider)

theorem getAvailableEngines_of_candidates_ne_nil (db : List AIEngine)
    (ov : List (String × Bool)) (h : candidateEngines db ov ≠ []) :
    getAvailableEngines db ov = sortByPriority (candidateEngines db ov) := by
  have hkey : (sortByPriority (db.filter (fun e => e.enabled))).filter
      (fun e => overridesGet ov e.provider) =
      sortByPriority (candidateEngines db ov) := by
    rw [filter_sortByPriority, List.filter_filter]
    unfold candidateEngines
    exact congrArg sortByPriority
      (List.filter_congr (fun a _ => by rw [Bool.and_comm]))
  have hne : sortByPriority (candidateEngines db ov) ≠ [] :=
    fun hx => h ((sortByPriority_eq_nil _).mp hx)
  have hempty : (sortByPriority (candidateEngines db ov)).isEmpty = false := by
    cases hxx : sortByPriority (candidateEngines db ov) with
    | nil => exact absurd hxx hne
    | cons x xs => rfl
  unfold getAvailableEngines
  rw [hkey]
  show (if (sortByPriority (candidateEngines db ov)).isEmpty = true then
      sortByPriority (db.filter (fun e => e.enabled && e.provider == "internal"))
    else sortByPriority (candidateEngines db ov)) =
    sortByPriority (candidateEngines db ov)
  rw [hempty]
  simp

theorem getAvailableEngines_of_candidates_nil (db : List AIEngine)
    (ov : List (String × Bool)) (h : candidateEngines db ov = []) :
    getAvailableEngines db ov =
      sortByPriority (db.filter (fun e => e.enabled && e.provider == "internal")) := by
  have hkey : (sortByPriority (db.filter (fun e => e.enabled))).filter
      (fun e => overridesGet ov e.provider) =
      sortByPriority (candidateEngines db ov) := by
    rw [filter_sortByPriority, List.filter_filter]
    unfold candidateEngines
    exact congrArg sortByPriority
      (List.filter_congr (fun a _ => by rw [Bool.and_comm]))
  unfold getAvailableEngines
  rw [hkey, h]
  show (if (sortByPriority ([] : List AIEngine)).isEmpty = true then
      sortByPriority (db.filter (fun e => e.enabled && e.provider == "internal"))
    else sortByPriority []) =
    sortByPriority (db.filter (fun e => e.enabled && e.provider == "internal"))
  simp [sortByPriority]

/-- C5: engine selection returns the enabled, override-surviving engine of
lowest priority number, ties broken by earliest creation order, and when
both the filtered candidate set and the internal-provider fallback are
empty, text generation fails with the no-engine-available error. -/
theorem router_selects_min_priority_or_fails (db : List AIEngine)
    (ov : List (String × Bool))
    (callProvider : String → String → AIRequest → List (String × Json))
    (req : AIRequest) (traceId : String) :
    (candidateEngines db ov ≠ [] →
      ∃ e l₁ l₂, chooseEngine db ov = some e ∧
        candidateEngines db ov = l₁ ++ e :: l₂ ∧
        (∀ f ∈ l₁, e.priority < f.priority) ∧
        (∀ f ∈ l₂, e.priority ≤ f.priority)) ∧
    (candidateEngines db ov = [] →
      db.filter (fun e => e.enabled && e.provider == "internal") = [] →
      generateText db ov callProvider req traceId = .error .noEngineAvailable) := by
  constructor
  · intro hne
    have hch : chooseEngine db ov = leftmostMin (candidateEngines db ov) := by
      unfold chooseEngine
      rw [getAvailableEngines_of_candidates_ne_nil db ov hne,
        head?_sortByPriority]
    cases hm : leftmostMin (candidateEngines db ov) with
    | none =>
      exfalso
      have hh := head?_sortByPriority (candidateEngines db ov)
      rw [hm] at hh
      exact hne ((sortByPriority_eq_nil _).mp (List.head?_eq_none_iff.mp hh))
    | some e =>
      obtain ⟨l₁, l₂, hdec, hlt, hle⟩ := leftmostMin_spec _ e hm
      exact ⟨e, l₁, l₂, by rw [hch, hm], hdec, hlt, hle⟩
  · intro h1 h2
    have hch : chooseEngine db ov = none := by
      unfold chooseEngine
      rw [getAvailableEngines_of_candidates_nil db ov h1, h2]
      rfl
    unfold generateText
    rw [hch]

/-- Concrete engine table used to instantiate the C5 theorem: two rows tie
at priority 1, the earlier-created of them must win. -/
def demoEngineTable : List AIEngine :=
  [{ id := "a", provider := "openai", model := "m1", label := "A",
     enabled := true, priority := 2 },
   { id := "b", provider := "gemini", model := "m2", label := "B",
     enabled := true, priority := 1 },
   { id := "c", provider := "openai", model := "m3", label := "C",
     enabled := true, priority := 1 }]

/-- Witness for C5: on the concrete table, selection picks the earliest
row among those of minimal priority. -/
theorem router_selects_min_priority_or_fails_witness :
    ∃ e l₁ l₂,
      chooseEngine demoEngineTable defaultProviderOverrides = some e ∧
      candidateEngines demoEngineTable defaultProviderOverrides = l₁ ++ e :: l₂ ∧
      (∀ f ∈ l₁, e.priority < f.priority) ∧
      (∀ f ∈ l₂, e.priority ≤ f.priority) :=
  (router_selects_min_priority_or_fails demoEngineTable defaultProviderOverrides
    (fun _ _ _ => []) { prompt := "p" } "t").1 (by decide)

/-- C10: the internal fallback query of engine selection does not re-apply
the kill-switch overrides, so an enabled internal engine is still chosen
when every enabled engine is switched off, even with the internal override
itself disabled; `set_provider_enabled` is a no-op for providers outside
the override map, and unknown providers are treated as enabled. -/
theorem router_fallback_and_killswitch_scope (db : List AIEngine)
    (ov : List (String × Bool)) (p : String) (b : Bool) :
    (overridesGet ov "internal" = false →
      candidateEngines db ov = [] →
      (∃ e ∈ db, e.enabled = true ∧ e.provider = "internal") →
      ∃ e, chooseEngine db ov = some e ∧
        e.provider = "internal" ∧ e.enabled = true) ∧
    ((ov.lookup p).isNone = true →
      setProviderEnabled ov p b = ov ∧ overridesGet ov p = true) ∧
    (p ∉ ["openai", "deepseek", "anthropic", "gemini", "internal"] →
      (defaultProviderOverrides.lookup p).isNone = true) := by
  refine ⟨?_, ?_, ?_⟩
  · intro _hov h1 hex
    obtain ⟨e0, he0db, he0en, he0pr⟩ := hex
    have he0f : e0 ∈ db.filter (fun e => e.enabled && e.provider == "internal") := by
      rw [List.mem_filter]
      exact ⟨he0db, by simp [he0en, he0pr]⟩
    have hfne : db.filter (fun e => e.enabled && e.provider == "internal") ≠ [] :=
      fun hx => by rw [hx] at he0f; exact absurd he0f (List.not_mem_nil e0)
    have hres := getAvailableEngines_of_candidates_nil db ov h1
    cases hs : sortByPriority (db.filter (fun e => e.enabled && e.provider == "internal")) with
    | nil => exact absurd ((sortByPriority_eq_nil _).mp hs) hfne
    | cons x xs =>
      have hx : x ∈ db.filter (fun e => e.enabled && e.provider == "internal") := by
        rw [← mem_sortByPriority x, hs]
        exact List.mem_cons_self x xs
      rw [List.mem_filter] at hx
      have hb := hx.2
      rw [Bool.and_eq_true] at hb
      refine ⟨x, ?_, (beq_iff_eq (a := x.provider)).mp hb.2, hb.1⟩
      unfold chooseEngine
      rw [hres, hs]
      rfl
  · intro hnone
    have hn : ov.lookup p = none := Option.isNone_iff_eq_none.mp hnone
    constructor
    · unfold setProviderEnabled
      rw [hn]
      rfl
    · unfold overridesGet
      rw [hn]
      rfl
  · intro hp
    simp only [List.mem_cons, List.not_mem_nil, or_false, not_or] at hp
    obtain ⟨h1, h2, h3, h4, h5⟩ := hp
    unfold defaultProviderOverrides
    rw [List.lookup, List.lookup, List.lookup, List.lookup, List.lookup,
      beq_eq_false_iff_ne.mpr h1, beq_eq_false_iff_ne.mpr h2,
      beq_eq_false_iff_ne.mpr h3, beq_eq_false_iff_ne.mpr h4,
      beq_eq_false_iff_ne.mpr h5]
    rfl

/-- Kill-switch state with every provider, internal included, disabled. -/
def allDisabledOverrides : List (String × Bool) :=
  [("openai", false), ("deepseek", false), ("anthropic", false),
   ("gemini", false), ("internal", false)]

/-- Engine table with a single enabled internal engine. -/
def internalOnlyEngineTable : List AIEngine :=
  [{ id := "i", provider := "internal", model := "echo", label := "I",
     enabled := true, priority := 5 }]

/-- Witness for C10: with every kill switch off, the enabled internal
engine is still selected, and toggling an unknown provider is a no-op. -/
theorem router_fallback_and_killswitch_scope_witness :
    (∃ e, chooseEngine internalOnlyEngineTable allDisabledOverrides = some e ∧
      e.provider = "internal" ∧ e.enabled = true) ∧
    (setProviderEnabled allDisabledOverrides "mistral" true = allDisabledOverrides ∧
      overridesGet allDisabledOverrides "mistral" = true) ∧
    (defaultProviderOverrides.lookup "mistral").isNone = true :=
  ⟨(router_fallback_and_killswitch_scope internalOnlyEngineTable
      allDisabledOverrides "mistral" true).1 (by decide) (by decide)
      ⟨{ id := "i", provider := "internal", model := "echo", label := "I",
         enabled := true, priority := 5 }, by decide, by decide, by decide⟩,
   (router_fallback_and_killswitch_scope internalOnlyEngineTable
      allDisabledOverrides "mistral" true).2.1 (by decide),
   (router_fallback_and_killswitch_scope internalOnlyEngineTable
      allDisabledOverrides "mistral" true).2.2 (by decide)⟩

/-! ## Persistence state (`l4_core/db/models.py`)

Rows of the tables the embedded engines read and write. Tables are lists
in insertion order; `generate_trace_id` is modelled by a counter plus
`idString`, whose only relevant property is injectivity. datetime
columns are omitted (wall-clock time is outside the model). -/

/-- The n-th unique opaque id string. -/
def idString (n : Nat) : String :=
  String.mk (List.replicate n 'i')

theorem idString_injective : Function.Injective idString := by
  intro a b h
  have := congrArg String.length h
  simpa [idString, String.length] using this

/-- A row of `file_audits`. -/
structure FileAudit where
  id : String
  workspaceId : String
  filePath : String
  newContent : String
  oldContent : Option String
  auditStatus : String
  meta : Json
deriving Repr

/-- A row of `file_rollbacks`. -/
structure FileRollback where
  id : String
  auditId : String
  restoredContent : String
  meta : Json
deriving Repr

/-- A row of `code_diffs`. -/
structure CodeDiff where
  id : String
  artifactVersionId : String
  before : String
  after : String
  diff : String
deriving Repr

/-- A row of `artifacts`. The `artifact_type` and `key` columns receive
whatever JSON value `ir.get` produced, so they are kept as JSON values. -/
structure Artifact where
  id : String
  workspaceId : String
  artifactType : Json
  key : Json
  meta : Json
deriving Repr

/-- A row of `artifact_versions`. -/
structure ArtifactVersion where
  id : String
  artifactId : String
  versionIndex : Nat
  content : Json
  contentFormat : String
  createdByEngine : Option String
  createdByFlowId : Option String
  sandboxStatus : Option String
  sandboxMetadata : Json
deriving Repr

/-- A row of `code_sandbox_runs`. -/
structure CodeSandboxRun where
  id : String
  artifactVersionId : String
  workspaceId : String
  environment : String
  command : String
  status : String
  stdout : Option String
  stderr : Option String
  exitCode : Option Int
  errorClass : Option String
  errorMessage : Option String
  errorMetadata : List (String × Json)
deriving Repr

/-- A row of `error_patterns`. -/
structure ErrorPattern where
  id : String
  errorClass : String
  signature : String
  meta : Json
deriving Repr

/-- A row of `engine_performance`. The `avg_latency_ms` fold depends on the
wall-clock timestamps of the run, which are outside the model; the column
is kept but the fold is not embedded. -/
structure EnginePerformance where
  id : String
  provider : String
  model : String
  totalCalls : Nat
  totalFailures : Nat
  avgLatencyMs : Int
deriving Repr

/-- A row of `workspace_analytics`. -/
structure WorkspaceAnalytics where
  id : String
  workspaceId : String
  totalFlowsRun : Nat
  totalArtifactsCreated : Nat
  totalErrors : Nat
deriving Repr

/-- A row of `prompt_logs`. -/
structure PromptLog where
  id : String
  workspaceId : Option String
  flowRunId : Option String
  provider : Option String
  model : Option String
  prompt : String
  meta : Json
deriving Repr

/-- A row of `ai_run_logs`. -/
structure AIRunLog where
  id : String
  workspaceId : Option String
  flowRunId : Option String
  provider : String
  model : String
  traceId : Option String
  requestPayload : Json
  responsePayload : Json
  success : Bool
deriving Repr

/-- A row of `flow_runs`. `output_payload` and `error_payload` carry the
column default `{}` until the engine assigns them. -/
structure FlowRun where
  id : String
  flowId : String
  workspaceId : String
  status : String
  inputPayload : Json
  outputPayload : Json
  errorPayload : Json
  traceId : Option String
deriving Repr

/-- A row of `flow_definitions`. The flow definitions built by workspace
initialization always store a list of step-name strings under the
`steps` key of the `definition` JSON column; the embedding keeps that
list directly. -/
structure FlowDefinition where
  id : String
  workspaceId : String
  key : String
  steps : List String
deriving Repr

/-- The persistent state the embedded engines touch, plus the trace-id
counter. -/
structure DB where
  nextId : Nat := 0
  audits : List FileAudit := []
  rollbacks : List FileRollback := []
  diffs : List CodeDiff := []
  sandboxRuns : List CodeSandboxRun := []
  errorPatterns : List ErrorPattern := []
  perfs : List EnginePerformance := []
  analytics : List WorkspaceAnalytics := []
  promptLogs : List PromptLog := []
  aiLogs : List AIRunLog := []
  artifacts : List Artifact := []
  versions : List ArtifactVersion := []
  flowRuns : List FlowRun := []
deriving Repr

/-- `generate_trace_id`: a fresh opaque id and the advanced counter. -/
def DB.genId (db : DB) : String × DB :=
  (idString db.nextId, { db with nextId := db.nextId + 1 })

/-- Update the first row of a list satisfying a predicate (an attribute
mutation on the row returned by `scalars().first()`). -/
def updateFirst (p : α → Bool) (f : α → α) : List α → List α
  | [] => []
  | x :: xs => if p x then f x :: xs else x :: updateFirst p f xs

/-! ## Teaching Engine (`l4_core/ai/teaching_engine.py`) -/

/-- JSON of an optional string column (`None` becomes JSON null). -/
def optStrJson : Option String → Json
  | some s => .str s
  | none => .null

/-- JSON of an optional integer column. -/
def optIntJson : Option Int → Json
  | some n => .num n
  | none => .null

/-- `TeachingEngine._hash_error`: the stable signature of an error pair.
The source hashes the string `error_class ++ ":" ++ error_message` with
sha256; the embedding keeps the preimage itself, modelling the digest as
injective (collisions are outside the model). -/
def hashError (errorClass errorMessage : String) : String :=
  errorClass ++ ":" ++ errorMessage

/-- `TeachingEngine._record_error_pattern`: deduplicated insertion of an
error pattern, keyed by signature. Returns the id of the existing or the
created row. -/
def recordErrorPattern (db : DB) (run : CodeSandboxRun) : String × DB :=
  match db.errorPatterns.find? (fun q =>
      q.signature == hashError (pyOrStr run.errorClass "UnknownError")
        (pyOrStr run.errorMessage "")) with
  | some existing => (existing.id, db)
  | none =>
    let r := db.genId
    (r.1, { r.2 with errorPatterns := r.2.errorPatterns ++
      [{ id := r.1, errorClass := pyOrStr run.errorClass "UnknownError",
         signature := hashError (pyOrStr run.errorClass "UnknownError")
           (pyOrStr run.errorMessage ""),
         meta := .obj [("message", optStrJson run.errorMessage),
                       ("stderr", optStrJson run.stderr),
                       ("exit_code", optIntJson run.exitCode)] }] })

/-- `TeachingEngine._extract_engine_from_metadata`: provider and model from
the run metadata, defaulting to `unknown`. Non-string metadata values are
never produced by the program and are mapped to the default. -/
def extractEngineFromMetadata (run : CodeSandboxRun) : String × String :=
  let provider := match run.errorMetadata.lookup "provider" with
    | some (.str s) => s
    | _ => "unknown"
  let model := match run.errorMetadata.lookup "model" with
    | some (.str s) => s
    | _ => "unknown"
  (provider, model)

/-- The in-place stat increments of `_update_engine_performance`
(the wall-clock latency fold aside, see the `EnginePerformance` comment). -/
def perfBump (run : CodeSandboxRun) (q : EnginePerformance) : EnginePerformance :=
  { q with totalCalls := q.totalCalls + 1
           totalFailures :=
             if run.status = "failed" then q.totalFailures + 1
             else q.totalFailures }

/-- `TeachingEngine._update_engine_performance`. -/
def updateEnginePerformance (db : DB) (run : CodeSandboxRun) : DB :=
  match db.perfs.find? (fun q =>
      q.provider == (extractEngineFromMetadata run).1 &&
      q.model == (extractEngineFromMetadata run).2) with
  | some _ =>
    { db with
      perfs :=
        updateFirst (fun q =>
          q.provider == (extractEngineFromMetadata run).1 &&
          q.model == (extractEngineFromMetadata run).2) (perfBump run) db.perfs }
  | none =>
    { (db.genId).2 with
      perfs :=
        (db.genId).2.perfs ++
          [perfBump run
            { id := (db.genId).1, provider := (extractEngineFromMetadata run).1,
              model := (extractEngineFromMetadata run).2,
              totalCalls := 0, totalFailures := 0, avgLatencyMs := 0 }] }

/-- The error counter increment of `_update_workspace_analytics`. -/
def analyticsBump (a : WorkspaceAnalytics) : WorkspaceAnalytics :=
  { a with totalErrors := a.totalErrors + 1 }

/-- `TeachingEngine._update_workspace_analytics`. -/
def updateWorkspaceAnalytics (db : DB) (workspaceId : String) : DB :=
  match db.analytics.find? (fun a => a.workspaceId == workspaceId) with
  | some _ =>
    { db with
      analytics :=
        updateFirst (fun a => a.workspaceId == workspaceId) analyticsBump
          db.analytics }
  | none =>
    { (db.genId).2 with
      analytics :=
        (db.genId).2.analytics ++
          [analyticsBump
            { id := (db.genId).1, workspaceId := workspaceId,
              totalFlowsRun := 0, totalArtifactsCreated := 0,
              totalErrors := 0 }] }

/-- `TeachingEngine.learn_from_sandbox`. -/
def learnFromSandbox (db : DB) (run : CodeSandboxRun) : DB :=
  let db := if run.status = "failed" then (recordErrorPattern db run).2 else db
  let db := updateEnginePerformance db run
  updateWorkspaceAnalytics db run.workspaceId

/-- The signature computed for a run carrying the given
`(error_class, error_message)` column pair. -/
def errSignature (ec em : Option String) : String :=
  hashError (pyOrStr ec "UnknownError") (pyOrStr em "")

/-- A sequence of `_record_error_pattern` calls, one per run. -/
def recordAll (runs : List CodeSandboxRun) (db : DB) : DB :=
  runs.foldl (fun d r => (recordErrorPattern d r).2) db

theorem recordErrorPattern_of_absent (db : DB) (run : CodeSandboxRun)
    (h : ∀ q ∈ db.errorPatterns,
      q.signature ≠ errSignature run.errorClass run.errorMessage) :
    ∃ pat, (recordErrorPattern db run).2.errorPatterns =
        db.errorPatterns ++ [pat] ∧
      pat.signature = errSignature run.errorClass run.errorMessage := by
  have hfind : db.errorPatterns.find?
      (fun q => q.signature ==
        hashError (pyOrStr run.errorClass "UnknownError")
          (pyOrStr run.errorMessage "")) = none := by
    rw [List.find?_eq_none]
    intro q hq
    simp only [beq_iff_eq]
    exact h q hq
  unfold recordErrorPattern
  rw [hfind]
  exact ⟨_, rfl, rfl⟩

theorem recordErrorPattern_of_present (db : DB) (run : CodeSandboxRun)
    (h : ∃ q ∈ db.errorPatterns,
      q.signature = errSignature run.errorClass run.errorMessage) :
    (recordErrorPattern db run).2 = db := by
  obtain ⟨q, hq, hsig⟩ := h
  unfold recordErrorPattern
  cases hfind : db.errorPatterns.find?
      (fun q => q.signature ==
        hashError (pyOrStr run.errorClass "UnknownError")
          (pyOrStr run.errorMessage "")) with
  | none =>
    exfalso
    rw [List.find?_eq_none] at hfind
    exact hfind q hq (by simp [beq_iff_eq]; exact hsig)
  | some existing => rfl

theorem recordAll_of_present (runs : List CodeSandboxRun) (db : DB)
    (ec em : Option String)
    (hruns : ∀ r ∈ runs, r.errorClass = ec ∧ r.errorMessage = em)
    (h : ∃ q ∈ db.errorPatterns, q.signature = errSignature ec em) :
    recordAll runs db = db := by
  induction runs with
  | nil => rfl
  | cons r rest ih =>
    have hr := hruns r (List.mem_cons_self r rest)
    have hstep : (recordErrorPattern db r).2 = db := by
      apply recordErrorPattern_of_present
      rw [hr.1, hr.2]
      exact h
    show recordAll rest (recordErrorPattern db r).2 = db
    rw [hstep]
    exact ih (fun x hx => hruns x (List.mem_cons_of_mem r hx))

/-- C7: any number of sandbox failures with an identical
(error_class, error_message) pair produce exactly one ErrorPattern row:
the signature is the stable hash of the pair, a row with that signature
is looked up first, and a second occurrence of the signature leaves the
store unchanged. -/
theorem errorPattern_dedup (ec em : Option String)
    (runs : List CodeSandboxRun) (db : DB)
    (hruns : ∀ r ∈ runs, r.errorClass = ec ∧ r.errorMessage = em)
    (hne : runs ≠ [])
    (h0 : ∀ q ∈ db.errorPatterns, q.signature ≠ errSignature ec em) :
    (∃ pat, (recordAll runs db).errorPatterns.filter
        (fun q => q.signature == errSignature ec em) = [pat] ∧
      pat.signature = errSignature ec em) ∧
    (∀ (db' : DB) (r : CodeSandboxRun), r.errorClass = ec →
      r.errorMessage = em →
      (∃ q ∈ db'.errorPatterns, q.signature = errSignature ec em) →
      (recordErrorPattern db' r).2 = db') := by
  constructor
  · cases runs with
    | nil => exact absurd rfl hne
    | cons r rest =>
      have hr := hruns r (List.mem_cons_self r rest)
      obtain ⟨pat, hap, hsig⟩ := recordErrorPattern_of_absent db r
        (by rw [hr.1, hr.2]; exact h0)
      rw [hr.1, hr.2] at hsig
      have hrest : recordAll rest (recordErrorPattern db r).2 =
          (recordErrorPattern db r).2 := by
        apply recordAll_of_present rest _ ec em
          (fun x hx => hruns x (List.mem_cons_of_mem r hx))
        exact ⟨pat, by rw [hap]; exact List.mem_append_right _ (List.mem_cons_self pat []), hsig⟩
      refine ⟨pat, ?_, hsig⟩
      show ((recordAll rest (recordErrorPattern db r).2).errorPatterns.filter
        (fun q => q.signature == errSignature ec em)) = [pat]
      rw [hrest, hap, List.filter_append]
      have hleft : db.errorPatterns.filter
          (fun q => q.signature == errSignature ec em) = [] := by
        rw [List.filter_eq_nil_iff]
        intro q hq
        simp only [beq_iff_eq]
        exact h0 q hq
      rw [hleft]
      simp [hsig]
  · intro db' r hec hem hex
    apply recordErrorPattern_of_present
    rw [hec, hem]
    exact hex

/-- A concrete failed sandbox run used to instantiate the C7 theorem. -/
def demoFailedRun : CodeSandboxRun :=
  { id := "r1", artifactVersionId := "v1", workspaceId := "ws",
    environment := "python", command := "", status := "failed",
    stdout := some "", stderr := some "boom", exitCode := some 1,
    errorClass := some "RuntimeError", errorMessage := some "boom",
    errorMetadata := [] }

/-- Witness for C7: two identical failures on an empty store leave exactly
one pattern row, and the second call changes nothing. -/
theorem errorPattern_dedup_witness :
    (∃ pat, (recordAll [demoFailedRun, demoFailedRun] {}).errorPatterns.filter
        (fun q => q.signature ==
          errSignature (some "RuntimeError") (some "boom")) = [pat] ∧
      pat.signature = errSignature (some "RuntimeError") (some "boom")) ∧
    (∀ (db' : DB) (r : CodeSandboxRun),
      r.errorClass = some "RuntimeError" → r.errorMessage = some "boom" →
      (∃ q ∈ db'.errorPatterns,
        q.signature = errSignature (some "RuntimeError") (some "boom")) →
      (recordErrorPattern db' r).2 = db') :=
  errorPattern_dedup (some "RuntimeError") (some "boom")
    [demoFailedRun, demoFailedRun] {}
    (by
      intro r hr
      rcases List.mem_cons.mp hr with h | h
      · subst h; exact ⟨rfl, rfl⟩
      · rcases List.mem_cons.mp h with h2 | h2
        · subst h2; exact ⟨rfl, rfl⟩
        · exact absurd h2 (List.not_mem_nil r))
    (by simp)
    (by simp)

/-! ## Sandbox Engine (`l4_core/ai/sandbox_engine.py`)

The subprocess execution of `_execute` (temp file, interpreter command,
captured stdout/stderr/exit code) is an external effect; its outcome is
the `ExecOutcome` oracle parameter: either the process finished with
captured streams and an exit code, or an exception was raised while
executing (the process could not even start). -/

inductive ExecOutcome where
  | finished (stdout stderr : String) (exitCode : Int)
  | raised (className message : String)
deriving DecidableEq, Repr

/-- `SandboxEngine._filename_for`. -/
def filenameFor (language : String) : String :=
  if language = "python" then "script.py"
  else if language = "node" then "script.js"
  else "script.txt"

/-- `SandboxEngine._default_command`. -/
def defaultCommand (language filePath : String) : String :=
  if language = "python" then "python3 " ++ filePath
  else if language = "node" then "node " ++ filePath
  else "sh " ++ filePath

/-- The message of the AttributeError raised when
`artifact_version.artifact` resolves to `None` and `.workspace_id` is
read on it. -/
def attrNoneMsg : String :=
  "AttributeError: \x27NoneType\x27 object has no attribute \x27workspace_id\x27"

/-- `SandboxEngine.run_code`: the run row's workspace id is read through
`artifact_version.artifact.workspace_id`; the relationship resolves to
the stored artifact row keyed by the version's artifact_id, and to
`None` when no such row exists — then the attribute read raises
AttributeError before the run row is created (the raise escapes with the
session state, carried on the error). Otherwise the execution outcome is
classified, the run row persisted, the artifact version marked, and the
run handed unconditionally to the Teaching Engine. -/
def runCode (exec : ExecOutcome) (db : DB) (av : ArtifactVersion)
    (language : String) (command : Option String) :
    Except (String × DB) (CodeSandboxRun × ArtifactVersion × DB) :=
  let r := db.genId
  let db := r.2
  match db.artifacts.find? (fun a => a.id == av.artifactId) with
  | none => .error (attrNoneMsg, db)
  | some artifact =>
    let run0 : CodeSandboxRun :=
      { id := r.1, artifactVersionId := av.id,
        workspaceId := artifact.workspaceId,
        environment := language, command := command.getD "",
        status := "running", stdout := none, stderr := none, exitCode := none,
        errorClass := none, errorMessage := none, errorMetadata := [] }
    let outcome : CodeSandboxRun × ArtifactVersion :=
      match exec with
      | .finished out err code =>
        if code = 0 then
          ({ run0 with stdout := some out
                       stderr := some err
                       exitCode := some code
                       status := "success" },
           { av with sandboxStatus := some "passed" })
        else
          ({ run0 with stdout := some out
                       stderr := some err
                       exitCode := some code
                       status := "failed"
                       errorClass := some "RuntimeError"
                       errorMessage := some (if err = "" then "Unknown error" else err) },
           { av with sandboxStatus := some "failed" })
      | .raised cls msg =>
        ({ run0 with status := "failed"
                     stderr := some msg
                     errorClass := some cls
                     errorMessage := some msg },
         { av with sandboxStatus := some "failed" })
    let db := { db with sandboxRuns := db.sandboxRuns ++ [outcome.1] }
    let db := learnFromSandbox db outcome.1
    .ok (outcome.1, outcome.2, db)

/-! ## Audit Engine (`l4_core/ai/audit_engine.py`)

The file system is a list of path-content pairs; a write overwrites the
entry for the path. -/

abbrev FS := List (String × String)

/-- Read a file: `open(path).read()` when the path exists. -/
def fsRead (fs : FS) (path : String) : Option String :=
  fs.lookup path

/-- Write a file at a path, replacing any previous content. -/
def fsWrite (fs : FS) (path content : String) : FS :=
  (path, content) :: fs.filter (fun kv => kv.1 != path)

/-- The ways `apply_change_with_audit` escapes exceptionally: the
ValueError for a blank path, or an exception raised mid-protocol, which
escapes carrying the file-system and session state already in effect at
the raise. -/
inductive AuditError where
  | invalidPath
  | raised (message : String) (fs : FS) (db : DB)

/-- Update the audit row (keyed by primary id) after a status mutation on
the tracked object plus commit. -/
def setAuditStatus (db : DB) (auditId status : String) : DB :=
  { db with audits := db.audits.map (fun a =>
      if a.id = auditId then { a with auditStatus := status } else a) }

/-- `AuditEngine._simple_diff`: Python `str.splitlines` restricted to
newline separators, which is the only separator the engines produce. -/
def pySplitlines (s : String) : List String :=
  let parts := s.splitOn "\n"
  if parts.getLast? = some "" then parts.dropLast else parts

/-- `AuditEngine._simple_diff`. -/
def simpleDiff (before after : String) : String :=
  String.intercalate "\n"
    (["--- BEFORE ---"] ++ pySplitlines before ++ ["--- AFTER ---"] ++
      pySplitlines after)

/-- `AuditEngine._run_sandbox_for_file`: wraps the new content in a
synthetic, never-persisted artifact version whose artifact id
"audit-artifact" is never inserted anywhere, and hands it to the sandbox
engine; the sandbox engine's AttributeError (see `runCode`) propagates
uncaught. On a completed non-success run a line-based diff row is
recorded. Returns whether the sandbox passed. -/
def runSandboxForFile (exec : ExecOutcome) (db : DB) (audit : FileAudit)
    (language : String) (oldContent : Option String) (newContent : String) :
    Except (String × DB) (Bool × DB) :=
  let r := db.genId
  let db := r.2
  let fakeAV : ArtifactVersion :=
    { id := r.1, artifactId := "audit-artifact", versionIndex := 1,
      content := .str newContent, contentFormat := "text",
      createdByEngine := some "audit-engine", createdByFlowId := none,
      sandboxStatus := some "unknown", sandboxMetadata := .obj [] }
  match runCode exec db fakeAV language none with
  | .error ed => .error ed
  | .ok rc =>
    if rc.1.status = "success" then .ok (true, rc.2.2)
    else
      let db := rc.2.2
      let r2 := db.genId
      let db := r2.2
      let diffRow : CodeDiff :=
        { id := r2.1, artifactVersionId := fakeAV.id,
          before := oldContent.getD "", after := newContent,
          diff := simpleDiff (oldContent.getD "") newContent }
      .ok (false, { db with diffs := db.diffs ++ [diffRow] })

/-- `AuditEngine._rollback`: restore the old content and record a rollback
row when a prior version existed; mark the audit failed unconditionally. -/
def rollback (db : DB) (fs : FS) (audit : FileAudit) (filePath : String)
    (oldContent : Option String) : FileAudit × FS × DB :=
  let step : FS × DB :=
    match oldContent with
    | some oc =>
      let fs := fsWrite fs filePath oc
      let r := db.genId
      let rb : FileRollback :=
        { id := r.1, auditId := audit.id, restoredContent := oc,
          meta := .obj [] }
      (fs, { r.2 with rollbacks := r.2.rollbacks ++ [rb] })
    | none => (fs, db)
  ({ audit with auditStatus := "failed" }, step.1,
   setAuditStatus step.2 audit.id "failed")

/-- `AuditEngine.apply_change_with_audit`: the backup / dry-run /
write / sandbox-validate / rollback protocol. The guard
`not file_path.strip()` holds exactly when every character is whitespace,
which is how it is written here. No step is wrapped in a handler, so an
exception raised inside the sandbox step escapes the call with the
already-performed writes in effect (the `.raised` error). -/
def applyChangeWithAudit (exec : ExecOutcome) (db : DB) (fs : FS)
    (workspaceId filePath newContent : String)
    (language : String := "python") (runSandbox : Bool := true)
    (dryRun : Bool := false) : Except AuditError (FileAudit × FS × DB) :=
  if filePath.toList.all Char.isWhitespace then .error .invalidPath
  else
    let oldContent := fsRead fs filePath
    let r := db.genId
    let db := r.2
    let audit : FileAudit :=
      { id := r.1, workspaceId := workspaceId, filePath := filePath,
        newContent := newContent, oldContent := oldContent,
        auditStatus := "pending",
        meta := .obj [("language", .str language), ("dry_run", .bool dryRun)] }
    let db := { db with audits := db.audits ++ [audit] }
    let fs := match oldContent with
      | some oc => fsWrite fs (filePath ++ ".backup") oc
      | none => fs
    if dryRun then
      .ok ({ audit with auditStatus := "dry_run" }, fs,
        setAuditStatus db audit.id "dry_run")
    else
      let fs := fsWrite fs filePath newContent
      let sres : Except (String × DB) (Bool × DB) :=
        if runSandbox then
          runSandboxForFile exec db audit language oldContent newContent
        else .ok (true, db)
      match sres with
      | .error ed => .error (.raised ed.1 fs ed.2)
      | .ok s =>
        if s.1 then
          .ok ({ audit with auditStatus := "passed" }, fs,
            setAuditStatus s.2 audit.id "passed")
        else
          .ok (rollback s.2 fs audit filePath oldContent)

/-! ### File-system and frame lemmas -/

theorem fsRead_fsWrite_self (fs : FS) (p c : String) :
    fsRead (fsWrite fs p c) p = some c := by
  simp [fsRead, fsWrite, List.lookup]

theorem lookup_filter_ne (fs : FS) (p q : String) (h : q ≠ p) :
    (fs.filter (fun kv => kv.1 != p)).lookup q = fs.lookup q := by
  induction fs with
  | nil => rfl
  | cons kv rest ih =>
    rw [List.filter_cons]
    by_cases hk : kv.1 = p
    · have hcond : (kv.1 != p) = false := by simp [hk]
      rw [hcond, if_neg (by simp)]
      have hq : (q == kv.1) = false :=
        beq_eq_false_iff_ne.mpr (fun he => h (he.trans hk))
      simp [List.lookup, hq, ih]
    · have hcond : (kv.1 != p) = true := by simp [hk]
      rw [hcond, if_pos rfl]
      cases hq : (q == kv.1) <;> simp [List.lookup, hq, ih]

theorem fsRead_fsWrite_ne (fs : FS) (p q c : String) (h : q ≠ p) :
    fsRead (fsWrite fs p c) q = fsRead fs q := by
  simp only [fsRead, fsWrite, List.lookup, beq_eq_false_iff_ne.mpr h]
  exact lookup_filter_ne fs p q h

theorem ne_backup (p : String) : p ≠ p ++ ".backup" := by
  intro h
  have hl := congrArg String.length h
  rw [String.length_append] at hl
  have : (".backup" : String).length = 7 := by decide
  omega

theorem setAuditStatus_rollbacks (db : DB) (aid s : String) :
    (setAuditStatus db aid s).rollbacks = db.rollbacks := rfl

theorem setAuditStatus_diffs (db : DB) (aid s : String) :
    (setAuditStatus db aid s).diffs = db.diffs := rfl

theorem setAuditStatus_sandboxRuns (db : DB) (aid s : String) :
    (setAuditStatus db aid s).sandboxRuns = db.sandboxRuns := rfl

theorem map_setStatus_id (l : List FileAudit) (aid s : String)
    (hfresh : ∀ a ∈ l, a.id ≠ aid) :
    l.map (fun a => if a.id = aid then { a with auditStatus := s } else a) = l := by
  induction l with
  | nil => rfl
  | cons x xs ih =>
    rw [List.map_cons, if_neg (hfresh x (List.mem_cons_self x xs)),
      ih (fun a ha => hfresh a (List.mem_cons_of_mem x ha))]

theorem recordErrorPattern_audits (db : DB) (run : CodeSandboxRun) :
    (recordErrorPattern db run).2.audits = db.audits := by
  unfold recordErrorPattern
  cases h : db.errorPatterns.find? (fun q =>
      q.signature == hashError (pyOrStr run.errorClass "UnknownError")
        (pyOrStr run.errorMessage "")) <;> rfl

theorem recordErrorPattern_rollbacks (db : DB) (run : CodeSandboxRun) :
    (recordErrorPattern db run).2.rollbacks = db.rollbacks := by
  unfold recordErrorPattern
  cases h : db.errorPatterns.find? (fun q =>
      q.signature == hashError (pyOrStr run.errorClass "UnknownError")
        (pyOrStr run.errorMessage "")) <;> rfl

theorem recordErrorPattern_diffs (db : DB) (run : CodeSandboxRun) :
    (recordErrorPattern db run).2.diffs = db.diffs := by
  unfold recordErrorPattern
  cases h : db.errorPatterns.find? (fun q =>
      q.signature == hashError (pyOrStr run.errorClass "UnknownError")
        (pyOrStr run.errorMessage "")) <;> rfl

theorem updateEnginePerformance_frame (db : DB) (run : CodeSandboxRun) :
    (updateEnginePerformance db run).audits = db.audits ∧
    (updateEnginePerformance db run).rollbacks = db.rollbacks ∧
    (updateEnginePerformance db run).diffs = db.diffs := by
  unfold updateEnginePerformance
  split <;> exact ⟨rfl, rfl, rfl⟩

theorem updateWorkspaceAnalytics_frame (db : DB) (workspaceId : String) :
    (updateWorkspaceAnalytics db workspaceId).audits = db.audits ∧
    (updateWorkspaceAnalytics db workspaceId).rollbacks = db.rollbacks ∧
    (updateWorkspaceAnalytics db workspaceId).diffs = db.diffs := by
  unfold updateWorkspaceAnalytics
  split <;> exact ⟨rfl, rfl, rfl⟩

theorem learnFromSandbox_frame (db : DB) (run : CodeSandboxRun) :
    (learnFromSandbox db run).audits = db.audits ∧
    (learnFromSandbox db run).rollbacks = db.rollbacks ∧
    (learnFromSandbox db run).diffs = db.diffs := by
  unfold learnFromSandbox
  obtain ⟨ha2, hr2, hd2⟩ := updateWorkspaceAnalytics_frame
    (updateEnginePerformance
      (if run.status = "failed" then (recordErrorPattern db run).2 else db) run)
    run.workspaceId
  obtain ⟨ha1, hr1, hd1⟩ := updateEnginePerformance_frame
    (if run.status = "failed" then (recordErrorPattern db run).2 else db) run
  rw [ha2, hr2, hd2, ha1, hr1, hd1]
  by_cases hs : run.status = "failed"
  · rw [if_pos hs, recordErrorPattern_audits, recordErrorPattern_rollbacks,
      recordErrorPattern_diffs]
    exact ⟨rfl, rfl, rfl⟩
  · rw [if_neg hs]
    exact ⟨rfl, rfl, rfl⟩

theorem learnFromSandbox_audits (db : DB) (run : CodeSandboxRun) :
    (learnFromSandbox db run).audits = db.audits :=
  (learnFromSandbox_frame db run).1

theorem learnFromSandbox_rollbacks (db : DB) (run : CodeSandboxRun) :
    (learnFromSandbox db run).rollbacks = db.rollbacks :=
  (learnFromSandbox_frame db run).2.1

theorem learnFromSandbox_diffs (db : DB) (run : CodeSandboxRun) :
    (learnFromSandbox db run).diffs = db.diffs :=
  (learnFromSandbox_frame db run).2.2

/-- When no stored artifact row has the id "audit-artifact", the sandbox
step of the audit engine raises AttributeError before any run row, diff
row or status update: only the two consumed trace ids distinguish the
escaped session state from the initial one. -/
theorem runSandboxForFile_raises (exec : ExecOutcome) (db : DB)
    (audit : FileAudit) (language : String) (oldC : Option String)
    (newC : String)
    (hart : db.artifacts.find? (fun a => a.id == "audit-artifact") = none) :
    runSandboxForFile exec db audit language oldC newC =
      .error (attrNoneMsg, ((db.genId).2.genId).2) := by
  simp only [runSandboxForFile, runCode, DB.genId]
  rw [hart]

/-- C1 is false of the program because of a code bug: `run_code` reads
`artifact_version.artifact.workspace_id` on the audit engine's transient
synthetic version, whose artifact id "audit-artifact" is never inserted,
so every runSandbox=true, dryRun=false call raises AttributeError after
the new content was already written. The target file is left holding the
new, unvalidated content, the backup sibling holds the old content, no
FileRollback row is created, no diff or sandbox-run row appears, and the
audit row stays pending — regardless of the execution outcome. -/
theorem applyChange_sandbox_raises_unrestored
    (exec : ExecOutcome) (db : DB) (fs : FS)
    (workspaceId filePath newContent language old : String)
    (hpath : filePath.toList.all Char.isWhitespace = false)
    (hold : fsRead fs filePath = some old)
    (hart : ∀ a ∈ db.artifacts, a.id ≠ "audit-artifact") :
    ∃ fs' db',
      applyChangeWithAudit exec db fs workspaceId filePath newContent
        language true false = .error (.raised attrNoneMsg fs' db') ∧
      fsRead fs' filePath = some newContent ∧
      fsRead fs' (filePath ++ ".backup") = some old ∧
      db'.rollbacks = db.rollbacks ∧
      db'.diffs = db.diffs ∧
      db'.sandboxRuns = db.sandboxRuns ∧
      (∃ audit, db'.audits = db.audits ++ [audit] ∧
        audit.auditStatus = "pending" ∧ audit.oldContent = some old) := by
  apply Exists.intro
  apply Exists.intro
  refine ⟨?_, ?_, ?_, ?_, ?_, ?_, ?_⟩
  · simp only [applyChangeWithAudit, hold, hpath, Bool.false_eq_true,
      if_false, if_true]
    rw [runSandboxForFile_raises]
    exact List.find?_eq_none.mpr (fun a ha => by simpa using hart a ha)
  · exact fsRead_fsWrite_self _ _ _
  · rw [fsRead_fsWrite_ne _ _ _ _ (Ne.symm (ne_backup filePath))]
    exact fsRead_fsWrite_self _ _ _
  · rfl
  · rfl
  · rfl
  · exact ⟨_, rfl, rfl, rfl⟩

/-- Witness for the C1 finding: on a pre-existing file and a sandbox
command that would have exited nonzero, the call escapes with
AttributeError, the file keeps the new content, and no rollback row or
failed status appears. -/
theorem applyChange_sandbox_raises_unrestored_witness :
    ∃ fs' db',
      applyChangeWithAudit (.finished "" "boom" 1) {} [("f.py", "old")] "ws"
        "f.py" "new" "python" true false =
        .error (.raised attrNoneMsg fs' db') ∧
      fsRead fs' "f.py" = some "new" ∧
      fsRead fs' ("f.py" ++ ".backup") = some "old" ∧
      db'.rollbacks = ({} : DB).rollbacks ∧
      db'.diffs = ({} : DB).diffs ∧
      db'.sandboxRuns = ({} : DB).sandboxRuns ∧
      (∃ audit, db'.audits = ({} : DB).audits ++ [audit] ∧
        audit.auditStatus = "pending" ∧ audit.oldContent = some "old") :=
  applyChange_sandbox_raises_unrestored (.finished "" "boom" 1) {}
    [("f.py", "old")] "ws" "f.py" "new" "python" "old"
    (by decide) (by decide) (by simp)

/-- C2 (amended): with dryRun=true the audit is marked dry_run and the call
returns before any write of the target or any sandbox run — the target
file and the sandbox, rollback and diff tables are untouched — but when
the file pre-existed, the `.backup` sibling has already been written
before the dry-run check, so the file system as a whole is not left
unchanged. -/
theorem applyChange_dryRun_target_unchanged
    (exec : ExecOutcome) (db : DB) (fs : FS)
    (workspaceId filePath newContent language : String) (runSandbox : Bool)
    (hpath : filePath.toList.all Char.isWhitespace = false)
    (hfresh : ∀ a ∈ db.audits, a.id ≠ idString db.nextId) :
    ∃ audit fs' db',
      applyChangeWithAudit exec db fs workspaceId filePath newContent
        language runSandbox true = .ok (audit, fs', db') ∧
      audit.auditStatus = "dry_run" ∧
      fsRead fs' filePath = fsRead fs filePath ∧
      db'.sandboxRuns = db.sandboxRuns ∧
      db'.rollbacks = db.rollbacks ∧
      db'.diffs = db.diffs ∧
      db'.audits = db.audits ++ [audit] ∧
      fs' = (match fsRead fs filePath with
             | some oc => fsWrite fs (filePath ++ ".backup") oc
             | none => fs) := by
  cases hold : fsRead fs filePath with
  | none =>
    apply Exists.intro
    apply Exists.intro
    apply Exists.intro
    refine ⟨?_, ?_, ?_, ?_, ?_, ?_, ?_, ?_⟩
    · simp only [applyChangeWithAudit, hold, hpath, Bool.false_eq_true,
        if_false, if_true]
      rfl
    · rfl
    · exact hold
    · rfl
    · rfl
    · rfl
    · simp [setAuditStatus, DB.genId, List.map_append]
      rw [map_setStatus_id]
      exact hfresh
    · rfl
  | some oc =>
    apply Exists.intro
    apply Exists.intro
    apply Exists.intro
    refine ⟨?_, ?_, ?_, ?_, ?_, ?_, ?_, ?_⟩
    · simp only [applyChangeWithAudit, hold, hpath, Bool.false_eq_true,
        if_false, if_true]
      rfl
    · rfl
    · rw [fsRead_fsWrite_ne fs (filePath ++ ".backup") filePath oc
        (ne_backup filePath)]
      exact hold
    · rfl
    · rfl
    · rfl
    · simp [setAuditStatus, DB.genId, List.map_append]
      rw [map_setStatus_id]
      exact hfresh
    · rfl

/-- Counterexample to C2 as stated: with dryRun=true on a pre-existing
file, the call writes the `.backup` sibling, so a file is touched and the
file system differs from its pre-call state (the target itself is
unchanged, see the amended theorem). -/
theorem applyChange_dryRun_counterexample :
    ∃ audit fs' db',
      applyChangeWithAudit (.finished "" "" 0) {} [("f.py", "old")] "ws"
        "f.py" "new" "python" true true = .ok (audit, fs', db') ∧
      fs' ≠ [("f.py", "old")] ∧
      fsRead fs' "f.py.backup" = some "old" ∧
      fsRead [("f.py", "old")] "f.py.backup" = none := by
  apply Exists.intro
  apply Exists.intro
  apply Exists.intro
  refine ⟨?_, ?_, ?_, ?_⟩
  · rfl
  · decide
  · rfl
  · rfl

/-- Witness for the amended C2: on a pre-existing file, the target content
is unchanged and no sandbox, rollback or diff row appears. -/
theorem applyChange_dryRun_target_unchanged_witness :
    ∃ audit fs' db',
      applyChangeWithAudit (.finished "" "" 0) {} [("f.py", "old")] "ws"
        "f.py" "new" "python" true true = .ok (audit, fs', db') ∧
      audit.auditStatus = "dry_run" ∧
      fsRead fs' "f.py" = fsRead [("f.py", "old")] "f.py" ∧
      db'.sandboxRuns = ({} : DB).sandboxRuns ∧
      db'.rollbacks = ({} : DB).rollbacks ∧
      db'.diffs = ({} : DB).diffs ∧
      db'.audits = ({} : DB).audits ++ [audit] ∧
      fs' = (match fsRead [("f.py", "old")] "f.py" with
             | some oc => fsWrite [("f.py", "old")] ("f.py" ++ ".backup") oc
             | none => [("f.py", "old")]) :=
  applyChange_dryRun_target_unchanged (.finished "" "" 0) {}
    [("f.py", "old")] "ws" "f.py" "new" "python" true
    (by decide) (by simp)

/-- C8 is false of the program because of the same code bug as C1: with
no pre-existing file, the runSandbox=true call still raises
AttributeError inside `run_code` before any sandbox run, so no CodeDiff
row is created and the audit never reaches failed status — it stays
pending while the file holds the new content and the call escapes
exceptionally. -/
theorem applyChange_firstwrite_raises_no_diff
    (exec : ExecOutcome) (db : DB) (fs : FS)
    (workspaceId filePath newContent language : String)
    (hpath : filePath.toList.all Char.isWhitespace = false)
    (hold : fsRead fs filePath = none)
    (hart : ∀ a ∈ db.artifacts, a.id ≠ "audit-artifact") :
    ∃ fs' db',
      applyChangeWithAudit exec db fs workspaceId filePath newContent
        language true false = .error (.raised attrNoneMsg fs' db') ∧
      fsRead fs' filePath = some newContent ∧
      db'.diffs = db.diffs ∧
      db'.rollbacks = db.rollbacks ∧
      db'.sandboxRuns = db.sandboxRuns ∧
      (∃ audit, db'.audits = db.audits ++ [audit] ∧
        audit.auditStatus = "pending" ∧ audit.oldContent = none) := by
  apply Exists.intro
  apply Exists.intro
  refine ⟨?_, ?_, ?_, ?_, ?_, ?_⟩
  · simp only [applyChangeWithAudit, hold, hpath, Bool.false_eq_true,
      if_false, if_true]
    rw [runSandboxForFile_raises]
    exact List.find?_eq_none.mpr (fun a ha => by simpa using hart a ha)
  · exact fsRead_fsWrite_self _ _ _
  · rfl
  · rfl
  · rfl
  · exact ⟨_, rfl, rfl, rfl⟩

/-- Witness for the C8 finding: a first-ever write with runSandbox=true
escapes with AttributeError; no diff row, no rollback row, audit pending,
file holding the new content. -/
theorem applyChange_firstwrite_raises_no_diff_witness :
    ∃ fs' db',
      applyChangeWithAudit (.finished "" "boom" 1) {} [] "ws" "f.py" "new"
        "python" true false = .error (.raised attrNoneMsg fs' db') ∧
      fsRead fs' "f.py" = some "new" ∧
      db'.diffs = ({} : DB).diffs ∧
      db'.rollbacks = ({} : DB).rollbacks ∧
      db'.sandboxRuns = ({} : DB).sandboxRuns ∧
      (∃ audit, db'.audits = ({} : DB).audits ++ [audit] ∧
        audit.auditStatus = "pending" ∧ audit.oldContent = none) :=
  applyChange_firstwrite_raises_no_diff (.finished "" "boom" 1) {} [] "ws"
    "f.py" "new" "python" (by decide) (by decide) (by simp)

/-! ## Flow Engine (`l4_core/ai/flow_engine.py`)

`json.dumps` is external; the serialization below keeps its shape
(indentation and string escaping are immaterial, the prompt text is only
handed to the generation oracle). `json.loads` is modelled by the
`parsed` field of the generation content: `none` when loading raises. -/

mutual

def jsonDumps : Json → String
  | .null => "null"
  | .bool true => "true"
  | .bool false => "false"
  | .num n => toString n
  | .str s => "\"" ++ s ++ "\""
  | .arr items => "[" ++ jsonDumpsList items ++ "]"
  | .obj fields => "\x7b" ++ jsonDumpsFields fields ++ "\x7d"

def jsonDumpsList : List Json → String
  | [] => ""
  | [j] => jsonDumps j
  | j :: rest => jsonDumps j ++ ", " ++ jsonDumpsList rest

def jsonDumpsFields : List (String × Json) → String
  | [] => ""
  | [(k, v)] => "\"" ++ k ++ "\": " ++ jsonDumps v
  | (k, v) :: rest =>
    "\"" ++ k ++ "\": " ++ jsonDumps v ++ ", " ++ jsonDumpsFields rest

end

/-- `FlowEngine._build_step_prompt`. -/
def buildStepPrompt (stepName : String) (userInput : Json)
    (previousOutputs : List (String × Json)) : String :=
  "You are executing step \x27" ++ stepName ++
  "\x27 of a multi-step flow.\n\n" ++
  "User Input (JSON):\n" ++ jsonDumps userInput ++ "\n\n" ++
  "Previous Step Outputs (JSON):\n" ++ jsonDumps (.obj previousOutputs) ++
  "\n\n" ++
  "Respond ONLY as a single JSON object with this exact shape:\n\n" ++
  "\x7b\n" ++
  "  \"kind\": \"code\" | \"doc\" | \"asset\" | \"shader\" | \"config\" | \"mixed\",\n" ++
  "  \"language\": \"python\" | \"typescript\" | \"glsl\" | \"none\",\n" ++
  "  \"title\": \"short title\",\n" ++
  "  \"summary\": \"short explanation\",\n" ++
  "  \"content\": \"the main code or text\",\n" ++
  "  \"metadata\": \x7b \"any\": \"extra details\" \x7d\n" ++
  "\x7d\n\n" ++
  "Do NOT include anything outside the JSON. The entire response MUST be valid JSON."

/-- The content the router hands back for one generation call: the raw
response text together with its `json.loads` result (`none` when loading
raises), and the provider metadata logged by the engine. -/
structure GenContent where
  raw : String
  parsed : Option Json
  provider : String
  model : String
  traceId : String

/-- The per-step return value of `_run_step` / `_extract_ir_and_artifacts`. -/
structure StepOutput where
  artifactId : String
  versionId : String
  ir : Json

/-- The step output as the JSON dict the engine stores and dumps. -/
def StepOutput.toJson (o : StepOutput) : Json :=
  .obj [("artifact_id", .str o.artifactId), ("version_id", .str o.versionId),
        ("ir", o.ir)]

/-- The degraded record synthesized when `json.loads` raises. -/
def degradedIR (flowId stepName raw : String) : Json :=
  .obj [("kind", .str "doc"), ("language", .str "none"),
        ("title", .str (flowId ++ ":" ++ stepName)),
        ("summary", .str "Unstructured output (failed JSON parse)."),
        ("content", .str raw),
        ("metadata", .obj [("step", .str stepName),
                           ("parse_error", .bool true)])]

/-- The try/except around `json.loads` in `_extract_ir_and_artifacts`. -/
def parseIR (flowId stepName raw : String) (parsed : Option Json) : Json :=
  match parsed with
  | some j => j
  | none => degradedIR flowId stepName raw

/-- Python dict merge `{**base, **extra}`. -/
def dictMerge (base extra : List (String × Json)) : List (String × Json) :=
  base.map (fun kv =>
    match extra.lookup kv.1 with
    | some v => (kv.1, v)
    | none => kv) ++
  extra.filter (fun kv => (base.lookup kv.1).isNone)

/-- Row creation of `_extract_ir_and_artifacts` once the record shape is
accepted: a fresh Artifact and its first ArtifactVersion. -/
def materializeArtifacts (db : DB) (flowRun : FlowRun) (stepName : String)
    (ir : Json) (fields metaFields : List (String × Json)) :
    StepOutput × DB :=
  let r := db.genId
  let artifact : Artifact :=
    { id := r.1, workspaceId := flowRun.workspaceId,
      artifactType := pyGet fields "kind" (.str "doc"),
      key := pyOr (fields.lookup "title")
        (.str (flowRun.flowId ++ ":" ++ stepName)),
      meta := .obj (dictMerge
        [("step", .str stepName),
         ("language", (fields.lookup "language").getD .null),
         ("summary", (fields.lookup "summary").getD .null)] metaFields) }
  let db := { r.2 with artifacts := r.2.artifacts ++ [artifact] }
  let r2 := db.genId
  let version : ArtifactVersion :=
    { id := r2.1, artifactId := artifact.id, versionIndex := 1,
      content := pyGet fields "content" (.str ""),
      contentFormat := "text", createdByEngine := some "flow-engine",
      createdByFlowId := some flowRun.flowId, sandboxStatus := none,
      sandboxMetadata := .obj [] }
  ({ artifactId := artifact.id, versionId := version.id, ir := ir },
   { r2.2 with versions := r2.2.versions ++ [version] })

/-- The artifact-materialization half of `_extract_ir_and_artifacts`.
`ir.get` on a non-dict raises AttributeError, and splatting a truthy
non-dict `metadata` raises TypeError; both errors escape to `run_flow`
as step errors (error text abbreviates the Python message). -/
def materializeIR (db : DB) (flowRun : FlowRun) (stepName : String)
    (ir : Json) : Except String (StepOutput × DB) :=
  match ir with
  | .obj fields =>
    match pyOr (fields.lookup "metadata") (.obj []) with
    | .obj metaFields =>
      .ok (materializeArtifacts db flowRun stepName ir fields metaFields)
    | _ => .error "TypeError: metadata is not a mapping"
  | _ => .error "AttributeError: parsed output has no attribute get"

/-- `FlowEngine._run_step`: log the prompt, call the router (the `gen`
oracle; a raised router or provider error is the `.error` case), log the
exchange, then extract IR and artifacts. -/
def runStep (gen : String → Except String GenContent) (db : DB)
    (flowRun : FlowRun) (stepName : String) (userInput : Json)
    (previousOutputs : List (String × StepOutput)) :
    Except String StepOutput × DB :=
  let prompt := buildStepPrompt stepName userInput
    (previousOutputs.map (fun kv => (kv.1, kv.2.toJson)))
  let r := db.genId
  let pl : PromptLog :=
    { id := r.1, workspaceId := some flowRun.workspaceId,
      flowRunId := some flowRun.id, provider := none, model := none,
      prompt := prompt, meta := .obj [("step", .str stepName)] }
  let db := { r.2 with promptLogs := r.2.promptLogs ++ [pl] }
  match gen prompt with
  | .error e => (.error e, db)
  | .ok resp =>
    let r2 := db.genId
    let al : AIRunLog :=
      { id := r2.1, workspaceId := some flowRun.workspaceId,
        flowRunId := some flowRun.id, provider := resp.provider,
        model := resp.model, traceId := some resp.traceId,
        requestPayload := .obj [("prompt", .str prompt)],
        responsePayload := .obj [("content", .str resp.raw)],
        success := true }
    let db := { r2.2 with aiLogs := r2.2.aiLogs ++ [al] }
    match materializeIR db flowRun stepName
        (parseIR flowRun.flowId stepName resp.raw resp.parsed) with
    | .ok (out, db) => (.ok out, db)
    | .error e => (.error e, db)

/-- The result dict of `run_flow`. -/
inductive FlowResult where
  | success (flowId flowRunId : String) (outputs : List (String × StepOutput))
  | failed (flowId flowRunId : String) (error : String)

/-- Update the flow-run row (keyed by primary id) after status or payload
mutations on the tracked object plus commit. -/
def setFlowRun (db : DB) (runId : String) (f : FlowRun → FlowRun) : DB :=
  { db with flowRuns := db.flowRuns.map (fun r =>
      if r.id = runId then f r else r) }

/-- The step loop of `run_flow`: execute steps in declared order,
accumulating outputs, stopping at the first step whose execution raises. -/
def runSteps (gen : String → Except String GenContent) (flowRun : FlowRun)
    (userInput : Json) :
    List String → List (String × StepOutput) → DB →
    Except (String × String) (List (String × StepOutput)) × DB
  | [], acc, db => (.ok acc, db)
  | s :: rest, acc, db =>
    match runStep gen db flowRun s userInput acc with
    | (.ok out, db) => runSteps gen flowRun userInput rest (acc ++ [(s, out)]) db
    | (.error e, db) => (.error (s, e), db)

/-- The JSON dict stored in `FlowRun.output_payload` on success. -/
def outputsToJson (outs : List (String × StepOutput)) : Json :=
  .obj (outs.map (fun kv => (kv.1, kv.2.toJson)))

/-- `FlowEngine.run_flow`: create the FlowRun in `running`, execute the
declared steps in order, and transition the run exactly once to `success`
(with the full output map) or to `failed` (with `{step, error}` recorded;
the output payload keeps its column default). -/
def runFlow (gen : String → Except String GenContent) (db : DB)
    (flow : FlowDefinition) (workspaceId : String) (userInput : Json) :
    FlowResult × DB :=
  let r := db.genId
  let flowRun : FlowRun :=
    { id := r.1, flowId := flow.id, workspaceId := workspaceId,
      status := "running", inputPayload := userInput,
      outputPayload := .obj [], errorPayload := .obj [], traceId := none }
  let db := { r.2 with flowRuns := r.2.flowRuns ++ [flowRun] }
  match runSteps gen flowRun userInput flow.steps [] db with
  | (.ok outs, db) =>
    (.success flow.id flowRun.id outs,
     setFlowRun db flowRun.id (fun fr =>
       { fr with status := "success", outputPayload := outputsToJson outs }))
  | (.error (s, e), db) =>
    (.failed flow.id flowRun.id e,
     setFlowRun db flowRun.id (fun fr =>
       { fr with status := "failed",
                 errorPayload := .obj [("step", .str s), ("error", .str e)] }))

/-! ## Runtime Engine (`l4_core/ai/runtime_engine.py`)

`run_flow_by_key` drives `FlowEngine.run_flow` under a nondeterministic
generation backend: the per-attempt outcome is the `runner` oracle,
indexed by the attempt number, returning either the flow-result dict or a
raised error. -/

inductive AttemptResult where
  | res (r : FlowResult)
  | exn (message : String)

/-- The result dict of `run_flow_by_key`. -/
inductive RunKeyResult where
  | success (attempts : Nat) (flowId flowRunId : String)
      (outputs : List (String × StepOutput)) (traceId : String)
  | failed (attempts : Nat) (flowId : String) (error : String)
      (traceId : String)

/-- The reported attempt count. -/
def attemptsOf : RunKeyResult → Nat
  | .success a _ _ _ _ => a
  | .failed a _ _ _ => a

/-- Whether an attempt outcome is the success dict
(`result.get("status") == "success"`). -/
def isSuccessAttempt : AttemptResult → Bool
  | .res (.success _ _ _) => true
  | _ => false

/-- The `last_error` recorded for a non-success attempt. -/
def attemptError : AttemptResult → String
  | .res (.success _ _ _) => "Unknown error"
  | .res (.failed _ _ e) => e
  | .exn m => m

/-- `RuntimeEngine._get_flow_definition`. -/
def findFlowDefinition (flows : List FlowDefinition)
    (workspaceId flowKey : String) : Option FlowDefinition :=
  flows.find? (fun f => f.workspaceId == workspaceId && f.key == flowKey)

/-- The `while attempt <= self.max_retries` loop of `run_flow_by_key`:
`fuel` counts the remaining loop iterations, `attempt` the attempts made
so far. On exhaustion the failure dict reports the final attempt count
and `last_error or "Unknown error"`. -/
def runAttemptsLoop (runner : Nat → DB → AttemptResult × DB)
    (flowId traceId : String) :
    Nat → Nat → Option String → DB → RunKeyResult × DB
  | 0, attempt, lastError, db =>
    (.failed attempt flowId (pyOrStr lastError "Unknown error") traceId, db)
  | fuel + 1, attempt, lastError, db =>
    match runner (attempt + 1) db with
    | (.res (.success fid rid outs), db) =>
      (.success (attempt + 1) fid rid outs traceId, db)
    | (.res (.failed _ _ e), db) =>
      runAttemptsLoop runner flowId traceId fuel (attempt + 1) (some e) db
    | (.exn e, db) =>
      runAttemptsLoop runner flowId traceId fuel (attempt + 1) (some e) db

/-- `RuntimeEngine.run_flow_by_key`: look up the FlowDefinition by
workspace and key (raising flow-not-found when absent) and run the
attempt loop with `max_retries + 1` iterations. -/
def runFlowByKey (flows : List FlowDefinition)
    (runner : Nat → DB → AttemptResult × DB) (maxRetries : Nat)
    (workspaceId flowKey traceId : String) (db : DB) :
    Except String (RunKeyResult × DB) :=
  match findFlowDefinition flows workspaceId flowKey with
  | none =>
    .error ("Flow \x27" ++ flowKey ++ "\x27 not found for workspace " ++
      workspaceId ++ ".")
  | some flow =>
    .ok (runAttemptsLoop runner flow.id traceId (maxRetries + 1) 0 none db)

/-- C6: with max_retries = 1 and a matching FlowDefinition,
`run_flow_by_key` makes at most 2 attempts; an attempt is retried exactly
when the flow engine reports failure or raises; success at any attempt
returns immediately with the outputs of that attempt; and the reported
attempts count is exact in both outcomes. -/
theorem runFlowByKey_retry_bound
    (flows : List FlowDefinition) (runner : Nat → DB → AttemptResult × DB)
    (workspaceId flowKey traceId : String) (db : DB) (flow : FlowDefinition)
    (hfound : findFlowDefinition flows workspaceId flowKey = some flow) :
    ∃ res db',
      runFlowByKey flows runner 1 workspaceId flowKey traceId db =
        .ok (res, db') ∧
      attemptsOf res ≤ 2 ∧
      (∀ fid rid outs db1,
        runner 1 db = (.res (.success fid rid outs), db1) →
        res = .success 1 fid rid outs traceId ∧ db' = db1) ∧
      (∀ o1 db1, runner 1 db = (o1, db1) → isSuccessAttempt o1 = false →
        ∀ fid rid outs db2,
          runner 2 db1 = (.res (.success fid rid outs), db2) →
          res = .success 2 fid rid outs traceId ∧ db' = db2) ∧
      (∀ o1 db1, runner 1 db = (o1, db1) → isSuccessAttempt o1 = false →
        ∀ o2 db2, runner 2 db1 = (o2, db2) → isSuccessAttempt o2 = false →
          res = .failed 2 flow.id
            (pyOrStr (some (attemptError o2)) "Unknown error") traceId ∧
          db' = db2) := by
  have hkey : runFlowByKey flows runner 1 workspaceId flowKey traceId db =
      .ok (runAttemptsLoop runner flow.id traceId 2 0 none db) := by
    unfold runFlowByKey
    rw [hfound]
  cases hr1 : runner 1 db with
  | mk o1 db1 =>
    cases o1 with
    | res fr1 =>
      cases fr1 with
      | success fid1 rid1 outs1 =>
        refine ⟨.success 1 fid1 rid1 outs1 traceId, db1, ?_, ?_, ?_, ?_, ?_⟩
        · rw [hkey]
          simp [runAttemptsLoop, hr1]
        · simp [attemptsOf]
        · intro fid' rid' outs' db1' heq
          simp only [Prod.mk.injEq, AttemptResult.res.injEq,
            FlowResult.success.injEq] at heq
          obtain ⟨⟨hf, hr, ho⟩, hd⟩ := heq
          subst hf; subst hr; subst ho; subst hd
          exact ⟨rfl, rfl⟩
        · intro o1' db1' heq hsucc
          obtain ⟨ho, _⟩ := Prod.mk.injEq .. |>.mp heq
          rw [← ho] at hsucc
          simp [isSuccessAttempt] at hsucc
        · intro o1' db1' heq hsucc
          obtain ⟨ho, _⟩ := Prod.mk.injEq .. |>.mp heq
          rw [← ho] at hsucc
          simp [isSuccessAttempt] at hsucc
      | failed fid1 rid1 e1 =>
        cases hr2 : runner 2 db1 with
        | mk o2 db2 =>
          have hstep : runAttemptsLoop runner flow.id traceId 2 0 none db =
              runAttemptsLoop runner flow.id traceId 1 1 (some e1) db1 := by
            simp [runAttemptsLoop, hr1]
          cases o2 with
          | res fr2 =>
            cases fr2 with
            | success fid2 rid2 outs2 =>
              refine ⟨.success 2 fid2 rid2 outs2 traceId, db2, ?_, ?_, ?_, ?_, ?_⟩
              · rw [hkey, hstep]
                simp [runAttemptsLoop, hr2]
              · simp [attemptsOf]
              · intro fid' rid' outs' db1' heq
                simp at heq
              · intro o1' db1' heq _hsucc fid' rid' outs' db2' heq2
                obtain ⟨ho, hd⟩ := Prod.mk.injEq .. |>.mp heq
                rw [← hd] at heq2
                rw [hr2] at heq2
                simp only [Prod.mk.injEq, AttemptResult.res.injEq,
                  FlowResult.success.injEq] at heq2
                obtain ⟨⟨hf, hr, ho2⟩, hd2⟩ := heq2
                subst hf; subst hr; subst ho2; subst hd2
                exact ⟨rfl, rfl⟩
              · intro o1' db1' heq _h1 o2' db2' heq2 hsucc2
                obtain ⟨ho, hd⟩ := Prod.mk.injEq .. |>.mp heq
                rw [← hd] at heq2
                rw [hr2] at heq2
                obtain ⟨ho2, _⟩ := Prod.mk.injEq .. |>.mp heq2
                rw [← ho2] at hsucc2
                simp [isSuccessAttempt] at hsucc2
            | failed fid2 rid2 e2 =>
              refine ⟨.failed 2 flow.id (pyOrStr (some e2) "Unknown error")
                traceId, db2, ?_, ?_, ?_, ?_, ?_⟩
              · rw [hkey, hstep]
                simp [runAttemptsLoop, hr2]
              · simp [attemptsOf]
              · intro fid' rid' outs' db1' heq
                simp at heq
              · intro o1' db1' heq _h1 fid' rid' outs' db2' heq2
                obtain ⟨ho, hd⟩ := Prod.mk.injEq .. |>.mp heq
                rw [← hd] at heq2
                rw [hr2] at heq2
                simp at heq2
              · intro o1' db1' heq _h1 o2' db2' heq2 _h2
                obtain ⟨ho, hd⟩ := Prod.mk.injEq .. |>.mp heq
                rw [← hd] at heq2
                rw [hr2] at heq2
                obtain ⟨ho2, hd2⟩ := Prod.mk.injEq .. |>.mp heq2
                subst hd2
                rw [← ho2]
                exact ⟨rfl, rfl⟩
          | exn m2 =>
            refine ⟨.failed 2 flow.id (pyOrStr (some m2) "Unknown error")
              traceId, db2, ?_, ?_, ?_, ?_, ?_⟩
            · rw [hkey, hstep]
              simp [runAttemptsLoop, hr2]
            · simp [attemptsOf]
            · intro fid' rid' outs' db1' heq
              simp at heq
            · intro o1' db1' heq _h1 fid' rid' outs' db2' heq2
              obtain ⟨ho, hd⟩ := Prod.mk.injEq .. |>.mp heq
              rw [← hd] at heq2
              rw [hr2] at heq2
              simp at heq2
            · intro o1' db1' heq _h1 o2' db2' heq2 _h2
              obtain ⟨ho, hd⟩ := Prod.mk.injEq .. |>.mp heq
              rw [← hd] at heq2
              rw [hr2] at heq2
              obtain ⟨ho2, hd2⟩ := Prod.mk.injEq .. |>.mp heq2
              subst hd2
              rw [← ho2]
              exact ⟨rfl, rfl⟩
    | exn m1 =>
      cases hr2 : runner 2 db1 with
      | mk o2 db2 =>
        have hstep : runAttemptsLoop runner flow.id traceId 2 0 none db =
            runAttemptsLoop runner flow.id traceId 1 1 (some m1) db1 := by
          simp [runAttemptsLoop, hr1]
        cases o2 with
        | res fr2 =>
          cases fr2 with
          | success fid2 rid2 outs2 =>
            refine ⟨.success 2 fid2 rid2 outs2 traceId, db2, ?_, ?_, ?_, ?_, ?_⟩
            · rw [hkey, hstep]
              simp [runAttemptsLoop, hr2]
            · simp [attemptsOf]
            · intro fid' rid' outs' db1' heq
              simp at heq
            · intro o1' db1' heq _hsucc fid' rid' outs' db2' heq2
              obtain ⟨ho, hd⟩ := Prod.mk.injEq .. |>.mp heq
              rw [← hd] at heq2
              rw [hr2] at heq2
              simp only [Prod.mk.injEq, AttemptResult.res.injEq,
                FlowResult.success.injEq] at heq2
              obtain ⟨⟨hf, hr, ho2⟩, hd2⟩ := heq2
              subst hf; subst hr; subst ho2; subst hd2
              exact ⟨rfl, rfl⟩
            · intro o1' db1' heq _h1 o2' db2' heq2 hsucc2
              obtain ⟨ho, hd⟩ := Prod.mk.injEq .. |>.mp heq
              rw [← hd] at heq2
              rw [hr2] at heq2
              obtain ⟨ho2, _⟩ := Prod.mk.injEq .. |>.mp heq2
              rw [← ho2] at hsucc2
              simp [isSuccessAttempt] at hsucc2
          | failed fid2 rid2 e2 =>
            refine ⟨.failed 2 flow.id (pyOrStr (some e2) "Unknown error")
              traceId, db2, ?_, ?_, ?_, ?_, ?_⟩
            · rw [hkey, hstep]
              simp [runAttemptsLoop, hr2]
            · simp [attemptsOf]
            · intro fid' rid' outs' db1' heq
              simp at heq
            · intro o1' db1' heq _h1 fid' rid' outs' db2' heq2
              obtain ⟨ho, hd⟩ := Prod.mk.injEq .. |>.mp heq
              rw [← hd] at heq2
              rw [hr2] at heq2
              simp at heq2
            · intro o1' db1' heq _h1 o2' db2' heq2 _h2
              obtain ⟨ho, hd⟩ := Prod.mk.injEq .. |>.mp heq
              rw [← hd] at heq2
              rw [hr2] at heq2
              obtain ⟨ho2, hd2⟩ := Prod.mk.injEq .. |>.mp heq2
              subst hd2
              rw [← ho2]
              exact ⟨rfl, rfl⟩
        | exn m2 =>
          refine ⟨.failed 2 flow.id (pyOrStr (some m2) "Unknown error")
            traceId, db2, ?_, ?_, ?_, ?_, ?_⟩
          · rw [hkey, hstep]
            simp [runAttemptsLoop, hr2]
          · simp [attemptsOf]
          · intro fid' rid' outs' db1' heq
            simp at heq
          · intro o1' db1' heq _h1 fid' rid' outs' db2' heq2
            obtain ⟨ho, hd⟩ := Prod.mk.injEq .. |>.mp heq
            rw [← hd] at heq2
            rw [hr2] at heq2
            simp at heq2
          · intro o1' db1' heq _h1 o2' db2' heq2 _h2
            obtain ⟨ho, hd⟩ := Prod.mk.injEq .. |>.mp heq
            rw [← hd] at heq2
            rw [hr2] at heq2
            obtain ⟨ho2, hd2⟩ := Prod.mk.injEq .. |>.mp heq2
            subst hd2
            rw [← ho2]
            exact ⟨rfl, rfl⟩

/-- The flow table used to instantiate the C6 theorem. -/
def demoFlows : List FlowDefinition :=
  [{ id := "f1", workspaceId := "ws", key := "demo", steps := ["a"] }]

/-- A flow runner whose first attempt fails and second succeeds. -/
def demoRunner (n : Nat) (db : DB) : AttemptResult × DB :=
  if n = 1 then (.res (.failed "f1" "r1" "first error"), db)
  else (.res (.success "f1" "r2" []), db)

/-- Witness for C6: on the fail-then-succeed runner, the call reports two
attempts and the second attempt's outputs. -/
theorem runFlowByKey_retry_bound_witness :
    ∃ res db',
      runFlowByKey demoFlows demoRunner 1 "ws" "demo" "t" ({} : DB) =
        .ok (res, db') ∧
      attemptsOf res ≤ 2 ∧
      (∀ fid rid outs db1,
        demoRunner 1 {} = (.res (.success fid rid outs), db1) →
        res = .success 1 fid rid outs "t" ∧ db' = db1) ∧
      (∀ o1 db1, demoRunner 1 {} = (o1, db1) → isSuccessAttempt o1 = false →
        ∀ fid rid outs db2,
          demoRunner 2 db1 = (.res (.success fid rid outs), db2) →
          res = .success 2 fid rid outs "t" ∧ db' = db2) ∧
      (∀ o1 db1, demoRunner 1 {} = (o1, db1) → isSuccessAttempt o1 = false →
        ∀ o2 db2, demoRunner 2 db1 = (o2, db2) → isSuccessAttempt o2 = false →
          res = .failed 2 "f1"
            (pyOrStr (some (attemptError o2)) "Unknown error") "t" ∧
          db' = db2) :=
  runFlowByKey_retry_bound demoFlows demoRunner "ws" "demo" "t" {}
    { id := "f1", workspaceId := "ws", key := "demo", steps := ["a"] } rfl

/-! ### Flow-engine lemmas -/

/-- The metadata recorded on the prompt log of one step. -/
def stepMeta (n : String) : Json := .obj [("step", .str n)]

theorem map_setFlowRun_id (l : List FlowRun) (rid : String)
    (f : FlowRun → FlowRun) (hfresh : ∀ r ∈ l, r.id ≠ rid) :
    l.map (fun r => if r.id = rid then f r else r) = l := by
  induction l with
  | nil => rfl
  | cons x xs ih =>
    rw [List.map_cons, if_neg (hfresh x (List.mem_cons_self x xs)),
      ih (fun r hr => hfresh r (List.mem_cons_of_mem x hr))]

theorem materializeIR_ok_spec (db : DB) (flowRun : FlowRun)
    (stepName : String) (ir : Json) (out : StepOutput) (db' : DB)
    (h : materializeIR db flowRun stepName ir = .ok (out, db')) :
    db'.promptLogs = db.promptLogs ∧ db'.flowRuns = db.flowRuns := by
  unfold materializeIR at h
  split at h
  · split at h
    · injection h with h2
      have hdb : db' = (materializeArtifacts db flowRun _ _ _ _).2 :=
        (congrArg Prod.snd h2).symm
      subst hdb
      exact ⟨rfl, rfl⟩
    · simp at h
  · simp at h

theorem runStep_spec (gen : String → Except String GenContent) (db : DB)
    (flowRun : FlowRun) (s : String) (input : Json)
    (acc : List (String × StepOutput)) (res : Except String StepOutput)
    (db' : DB) (h : runStep gen db flowRun s input acc = (res, db')) :
    db'.flowRuns = db.flowRuns ∧
    ∃ pl, db'.promptLogs = db.promptLogs ++ [pl] ∧ pl.meta = stepMeta s := by
  simp only [runStep] at h
  split at h
  · have hdb : db' = _ := (congrArg Prod.snd h).symm
    subst hdb
    exact ⟨rfl, _, rfl, rfl⟩
  · split at h
    · rename_i out db2 heq
      have hdb : db' = db2 := (congrArg Prod.snd h).symm
      subst hdb
      obtain ⟨hpl, hfr⟩ := materializeIR_ok_spec _ _ _ _ _ _ heq
      exact ⟨hfr, _, hpl, rfl⟩
    · rename_i e heq
      have hdb : db' = _ := (congrArg Prod.snd h).symm
      subst hdb
      exact ⟨rfl, _, rfl, rfl⟩

theorem runSteps_error_spec (gen : String → Except String GenContent)
    (flowRun : FlowRun) (input : Json) :
    ∀ (steps : List String) (acc : List (String × StepOutput)) (db : DB)
      (se : String × String) (db' : DB),
      runSteps gen flowRun input steps acc db = (.error se, db') →
      db'.flowRuns = db.flowRuns ∧
      ∃ pre post logs, steps = pre ++ se.1 :: post ∧
        db'.promptLogs = db.promptLogs ++ logs ∧
        logs.map (fun pl => pl.meta) = (pre ++ [se.1]).map stepMeta := by
  intro steps
  induction steps with
  | nil =>
    intro acc db se db' h
    simp [runSteps] at h
  | cons s rest ih =>
    intro acc db se db' h
    simp only [runSteps] at h
    split at h
    · rename_i out db1 heq
      obtain ⟨hfr, pre, post, logs, hdec, hpl, hmap⟩ := ih _ _ _ _ h
      obtain ⟨hfr1, pl, hpl1, hplmeta⟩ :=
        runStep_spec gen db flowRun s input acc _ _ heq
      refine ⟨by rw [hfr, hfr1], s :: pre, post, pl :: logs,
        by rw [hdec, List.cons_append], ?_, ?_⟩
      · rw [hpl, hpl1, List.append_assoc, List.singleton_append]
      · rw [List.map_cons, hplmeta, hmap, List.cons_append, List.map_cons]
    · rename_i e db1 heq
      simp only [Prod.mk.injEq, Except.error.injEq] at h
      obtain ⟨h1, h2⟩ := h
      subst h2
      subst h1
      obtain ⟨hfr1, pl, hpl1, hplmeta⟩ :=
        runStep_spec gen db flowRun s input acc _ _ heq
      refine ⟨hfr1, [], rest, [pl], rfl, hpl1, ?_⟩
      simp [hplmeta]

/-- C3 (amended): when a step raises, `run_flow` stops without attempting
the later steps (the prompt logs written are exactly those of the steps
up to and including the failing one), the FlowRun transitions to failed
with error_payload step set to the failing step and error to the raised
message — but output_payload is left at its empty column default: the
outputs of the completed earlier steps are not persisted on the run. -/
theorem runFlow_failfast (gen : String → Except String GenContent) (db : DB)
    (flow : FlowDefinition) (workspaceId : String) (userInput : Json)
    (fid rid e : String) (db' : DB)
    (hfresh : ∀ r ∈ db.flowRuns, r.id ≠ idString db.nextId)
    (h : runFlow gen db flow workspaceId userInput = (.failed fid rid e, db')) :
    ∃ fr s pre post logs,
      db'.flowRuns = db.flowRuns ++ [fr] ∧
      fr.id = rid ∧
      fr.status = "failed" ∧
      flow.steps = pre ++ s :: post ∧
      fr.errorPayload = .obj [("step", .str s), ("error", .str e)] ∧
      fr.outputPayload = .obj [] ∧
      db'.promptLogs = db.promptLogs ++ logs ∧
      logs.map (fun pl => pl.meta) = (pre ++ [s]).map stepMeta := by
  simp only [runFlow] at h
  split at h
  · simp at h
  · rename_i s0 e0 db2 heq
    simp only [Prod.mk.injEq, FlowResult.failed.injEq] at h
    obtain ⟨⟨hfid, hrid, he⟩, hdb⟩ := h
    subst hfid
    subst he
    subst hdb
    obtain ⟨hfr2, pre, post, logs, hdec, hpl, hmap⟩ :=
      runSteps_error_spec gen _ _ _ _ _ _ _ heq
    apply Exists.intro
    refine ⟨s0, pre, post, logs, ?_, ?_, ?_, ?_, ?_, ?_, ?_, ?_⟩
    · simp [setFlowRun, hfr2, List.map_append, DB.genId]
      rw [map_setFlowRun_id db.flowRuns _ _ hfresh]
    · exact hrid
    · rfl
    · exact hdec
    · rfl
    · rfl
    · exact hpl
    · exact hmap

/-- A two-step flow whose second step raises, used against C3. -/
def flowDemoAB : FlowDefinition :=
  { id := "f1", workspaceId := "ws", key := "two-step", steps := ["a", "b"] }

/-- Structural string-prefix test (used by the concrete oracles below to
dispatch on the step named in the prompt). -/
def strIsPrefixOf (p s : String) : Bool :=
  p.data.isPrefixOf s.data

/-- A generation oracle that raises on step b and returns non-JSON text on
every other step. -/
def genFailB (p : String) : Except String GenContent :=
  if strIsPrefixOf "You are executing step \x27b\x27" p then .error "boom"
  else .ok { raw := "hello", parsed := none, provider := "internal",
             model := "echo-internal", traceId := "t" }

set_option maxRecDepth 16384 in
/-- Witness for the amended C3: the failing two-step flow ends failed at
step b with only the prompt logs of steps a and b written. -/
theorem runFlow_failfast_witness :
    ∃ fr s pre post logs,
      ((runFlow genFailB {} flowDemoAB "ws" (.obj [])).2).flowRuns =
        ({} : DB).flowRuns ++ [fr] ∧
      fr.id = idString 0 ∧
      fr.status = "failed" ∧
      flowDemoAB.steps = pre ++ s :: post ∧
      fr.errorPayload = .obj [("step", .str s), ("error", .str "boom")] ∧
      fr.outputPayload = .obj [] ∧
      ((runFlow genFailB {} flowDemoAB "ws" (.obj [])).2).promptLogs =
        ({} : DB).promptLogs ++ logs ∧
      logs.map (fun pl => pl.meta) = (pre ++ [s]).map stepMeta :=
  runFlow_failfast genFailB {} flowDemoAB "ws" (.obj []) "f1" (idString 0)
    "boom" _ (by simp) rfl

set_option maxRecDepth 16384 in
/-- Counterexample to C3 as stated: in the failing two-step flow, step a
completed and produced an artifact, yet the failed FlowRun has an empty
output_payload — it does not contain the outputs of steps 1..k-1.
The artifact count shows step a completed before step b raised. -/
theorem runFlow_partial_outputs_counterexample :
    (runFlow genFailB {} flowDemoAB "ws" (.obj [])).1 =
      .failed "f1" (idString 0) "boom" ∧
    ((runFlow genFailB {} flowDemoAB "ws" (.obj [])).2.flowRuns.map
      (fun r => r.status)) = ["failed"] ∧
    ((runFlow genFailB {} flowDemoAB "ws" (.obj [])).2.flowRuns.map
      (fun r => jsonGet r.outputPayload "a")) = [none] ∧
    (runFlow genFailB {} flowDemoAB "ws" (.obj [])).2.artifacts.length = 1 :=
  ⟨rfl, rfl, rfl, rfl⟩

/-- The greatest version index among the stored versions of an artifact. -/
def maxVersionIndex (versions : List ArtifactVersion) (artifactId : String) :
    Nat :=
  (versions.filter (fun v => v.artifactId == artifactId)).foldr
    (fun v m => max v.versionIndex m) 0

/-- C4: a parsed step record is materialized as a new Artifact row and a
new ArtifactVersion row whose version_index is the previous maximum for
that artifact plus one (the artifact being new, that is 0 + 1 = 1);
existing rows are never edited in place — the engine only appends. The
code always takes the new-Artifact branch of the claim, even when an
artifact with the same key already exists. -/
theorem extract_creates_new_artifact_version (db : DB) (flowRun : FlowRun)
    (stepName : String) (ir : Json)
    (hfa : ∀ a ∈ db.artifacts, a.id ≠ idString db.nextId)
    (hfv : ∀ v ∈ db.versions, v.artifactId ≠ idString db.nextId)
    (hok : ∃ x, materializeIR db flowRun stepName ir = .ok x) :
    ∃ out db' a v,
      materializeIR db flowRun stepName ir = .ok (out, db') ∧
      db'.artifacts = db.artifacts ++ [a] ∧
      db'.versions = db.versions ++ [v] ∧
      a.id ∉ db.artifacts.map (fun x => x.id) ∧
      v.artifactId = a.id ∧
      v.versionIndex = maxVersionIndex db.versions a.id + 1 ∧
      out.artifactId = a.id ∧ out.versionId = v.id ∧ out.ir = ir := by
  obtain ⟨x, hx⟩ := hok
  cases ir with
  | null => simp [materializeIR] at hx
  | bool b => simp [materializeIR] at hx
  | num n => simp [materializeIR] at hx
  | str s => simp [materializeIR] at hx
  | arr items => simp [materializeIR] at hx
  | obj fields =>
    cases hmeta : pyOr (fields.lookup "metadata") (.obj []) with
    | obj metaFields =>
      apply Exists.intro
      apply Exists.intro
      apply Exists.intro
      apply Exists.intro
      refine ⟨?_, ?_, ?_, ?_, ?_, ?_, ?_, ?_, ?_⟩
      · simp only [materializeIR, hmeta]
        rfl
      · rfl
      · rfl
      · intro hmem
        obtain ⟨y, hy, hye⟩ := List.mem_map.mp hmem
        exact hfa y hy hye
      · rfl
      · have hnil : db.versions.filter
            (fun v => v.artifactId == idString db.nextId) = [] := by
          rw [List.filter_eq_nil_iff]
          intro v hv
          simp only [beq_iff_eq]
          exact hfv v hv
        simp [maxVersionIndex, DB.genId, hnil]
      · rfl
      · rfl
      · rfl
    | null => simp [materializeIR, hmeta] at hx
    | bool b => simp [materializeIR, hmeta] at hx
    | num n => simp [materializeIR, hmeta] at hx
    | str s => simp [materializeIR, hmeta] at hx
    | arr items => simp [materializeIR, hmeta] at hx

/-- A flow-run row used to instantiate the C4 theorem. -/
def demoFlowRun : FlowRun :=
  { id := "run-1", flowId := "f1", workspaceId := "ws", status := "running",
    inputPayload := .obj [], outputPayload := .obj [],
    errorPayload := .obj [], traceId := none }

/-- Witness for C4: materializing a record on an empty store appends one
artifact and one version with version_index 1 = 0 + 1. -/
theorem extract_creates_new_artifact_version_witness :
    ∃ out db' a v,
      materializeIR {} demoFlowRun "a" (.obj [("kind", .str "code")]) =
        .ok (out, db') ∧
      db'.artifacts = ({} : DB).artifacts ++ [a] ∧
      db'.versions = ({} : DB).versions ++ [v] ∧
      a.id ∉ ({} : DB).artifacts.map (fun x => x.id) ∧
      v.artifactId = a.id ∧
      v.versionIndex = maxVersionIndex ({} : DB).versions a.id + 1 ∧
      out.artifactId = a.id ∧ out.versionId = v.id ∧
      out.ir = .obj [("kind", .str "code")] :=
  extract_creates_new_artifact_version {} demoFlowRun "a"
    (.obj [("kind", .str "code")]) (by simp) (by simp) ⟨_, rfl⟩

/-! ### Parse-failure leniency (C9) -/

/-- When the generation content's `json.loads` raised (`parsed = none`),
the step's materialization succeeds and returns the degraded record. -/
theorem runStep_degraded_ok (gen : String → Except String GenContent)
    (db : DB) (flowRun : FlowRun) (s : String) (input : Json)
    (acc : List (String × StepOutput)) (c : GenContent)
    (hg : gen (buildStepPrompt s input
      (acc.map (fun kv => (kv.1, kv.2.toJson)))) = .ok c)
    (hp : c.parsed = none) :
    ∃ out db', runStep gen db flowRun s input acc = (.ok out, db') ∧
      out.ir = degradedIR flowRun.flowId s c.raw := by
  simp only [runStep, hg, hp]
  exact ⟨_, _, rfl, rfl⟩

/-- A step loop whose every generation succeeds with unparseable content
runs to completion. -/
theorem runSteps_all_degraded (gen : String → Except String GenContent)
    (flowRun : FlowRun) (input : Json)
    (hgen : ∀ p, ∃ c, gen p = .ok c ∧ c.parsed = none) :
    ∀ (steps : List String) (acc : List (String × StepOutput)) (db : DB),
      ∃ outs db', runSteps gen flowRun input steps acc db = (.ok outs, db') := by
  intro steps
  induction steps with
  | nil =>
    intro acc db
    exact ⟨acc, db, rfl⟩
  | cons s rest ih =>
    intro acc db
    obtain ⟨c, hg, hp⟩ := hgen (buildStepPrompt s input
      (acc.map (fun kv => (kv.1, kv.2.toJson))))
    obtain ⟨out, db3, hstep, _⟩ :=
      runStep_degraded_ok gen db flowRun s input acc c hg hp
    obtain ⟨outs, db4, hrest⟩ := ih (acc ++ [(s, out)]) db3
    exact ⟨outs, db4, by simp only [runSteps, hstep, hrest]⟩

/-- Contrapositive form: such a step loop never returns a step error. -/
theorem runSteps_all_degraded_ne (gen : String → Except String GenContent)
    (flowRun : FlowRun) (input : Json)
    (hgen : ∀ p, ∃ c, gen p = .ok c ∧ c.parsed = none) :
    ∀ (steps : List String) (acc : List (String × StepOutput)) (db : DB)
      (se : String × String) (db' : DB),
      runSteps gen flowRun input steps acc db = (.error se, db') → False := by
  intro steps acc db se db' h
  obtain ⟨outs, db2, hok⟩ := runSteps_all_degraded gen flowRun input hgen steps acc db
  rw [hok] at h
  exact absurd h (by simp)

/-- C9 (amended): the leniency covers exactly a raising `json.loads`.
When loading the generation output raises, the engine synthesizes the
degraded record — kind doc, content equal to the raw generation text,
metadata flagged parse_error = true — the step succeeds returning that
record so the flow continues, and a run all of whose generations are
unparseable never ends failed. When `json.loads` succeeds but yields a
non-object, the step does raise and the FlowRun fails (see the
counterexample), so a generation malformed in that sense does abort the
flow. -/
theorem parse_failure_leniency (fid s raw : String) :
    jsonGet (parseIR fid s raw none) "kind" = some (.str "doc") ∧
    jsonGet (parseIR fid s raw none) "content" = some (.str raw) ∧
    (∃ mf, jsonGet (parseIR fid s raw none) "metadata" = some (.obj mf) ∧
      mf.lookup "parse_error" = some (.bool true)) ∧
    (∀ (gen : String → Except String GenContent) (db : DB)
       (flowRun : FlowRun) (input : Json)
       (acc : List (String × StepOutput)) (c : GenContent),
       gen (buildStepPrompt s input
         (acc.map (fun kv => (kv.1, kv.2.toJson)))) = .ok c →
       c.parsed = none →
       ∃ out db', runStep gen db flowRun s input acc = (.ok out, db') ∧
         out.ir = degradedIR flowRun.flowId s c.raw) ∧
    (∀ (gen : String → Except String GenContent) (db : DB)
       (flow : FlowDefinition) (ws : String) (input : Json)
       (fid2 rid e : String) (db' : DB),
       (∀ p, ∃ c, gen p = .ok c ∧ c.parsed = none) →
       runFlow gen db flow ws input ≠ (.failed fid2 rid e, db')) := by
  refine ⟨rfl, rfl, ⟨[("step", .str s), ("parse_error", .bool true)], rfl, rfl⟩,
    ?_, ?_⟩
  · intro gen db flowRun input acc c hg hp
    exact runStep_degraded_ok gen db flowRun s input acc c hg hp
  · intro gen db flow ws input fid2 rid e db' hgen h
    simp only [runFlow] at h
    split at h
    · simp at h
    · rename_i s0 e0 db2 heq
      exact runSteps_all_degraded_ne gen _ input hgen _ _ _ _ _ heq

/-- A two-step flow whose generations are all plain unparseable text,
used against C9. -/
def flowPlain : FlowDefinition :=
  { id := "f2", workspaceId := "ws", key := "plain", steps := ["a", "b"] }

/-- A generation oracle that always returns plain text on which
`json.loads` raises. -/
def genPlain (p : String) : Except String GenContent :=
  .ok { raw := "plain text", parsed := none, provider := "internal",
        model := "echo-internal", traceId := "t" }

set_option maxRecDepth 16384 in
/-- Witness for the amended C9 at a concrete flow: the degraded record has
the claimed shape, and the all-unparseable two-step flow does not fail. -/
theorem parse_failure_leniency_witness :
    jsonGet (parseIR "f2" "a" "plain text" none) "kind" = some (.str "doc") ∧
    jsonGet (parseIR "f2" "a" "plain text" none) "content" =
      some (.str "plain text") ∧
    runFlow genPlain {} flowPlain "ws" (.obj []) ≠
      (.failed "f2" (idString 0) "boom",
       (runFlow genPlain {} flowPlain "ws" (.obj [])).2) :=
  ⟨(parse_failure_leniency "f2" "a" "plain text").1,
   (parse_failure_leniency "f2" "a" "plain text").2.1,
   (parse_failure_leniency "f2" "a" "plain text").2.2.2.2 genPlain {} flowPlain
     "ws" (.obj []) "f2" (idString 0) "boom"
     (runFlow genPlain {} flowPlain "ws" (.obj [])).2
     (fun p => ⟨_, rfl, rfl⟩)⟩

/-- A one-step flow whose generation is valid JSON but not an object,
used against C9 as stated. -/
def flowArr : FlowDefinition :=
  { id := "f3", workspaceId := "ws", key := "arr", steps := ["a"] }

/-- A generation oracle returning a valid JSON array: `json.loads`
succeeds, but the result is not the fixed-shape structured record. -/
def genArr (p : String) : Except String GenContent :=
  .ok { raw := "[1]", parsed := some (.arr [.num 1]), provider := "internal",
        model := "echo-internal", traceId := "t" }

set_option maxRecDepth 16384 in
/-- Counterexample to C9 as stated: a generation output that fails to
parse as the fixed-shape structured record — here a valid JSON array —
does fail the step: `ir.get` raises AttributeError, no degraded record is
synthesized, and the FlowRun ends failed. -/
theorem parse_failure_leniency_counterexample :
    (runFlow genArr {} flowArr "ws" (.obj [])).1 =
      .failed "f3" (idString 0)
        "AttributeError: parsed output has no attribute get" ∧
    ((runFlow genArr {} flowArr "ws" (.obj [])).2.flowRuns.map
      (fun r => r.status)) = ["failed"] ∧
    (runFlow genArr {} flowArr "ws" (.obj [])).2.artifacts.length = 0 :=
  ⟨rfl, rfl, rfl⟩

end BBEE
